import Mathlib

/-!
Verification development for the resilient structured-output streaming client
(package `ai`, file `client.go` of talk-to-ugur-back).

The Go source is shallowly embedded below:
pure functions become Lean functions, the stateful incremental JSON field
extractor (`jsonStreamParser`) becomes explicit state passing over a
`ParserState` record, and the two callbacks (`onReply`, `onEmotion`) are
modelled by recording every argument they are invoked with, in order, in the
lists `replyEvents` and `emotionEvents`.  Callbacks are assumed not to return
errors (in the program they only forward chunks over a channel), so `Feed`
is total.  Go `strings.Builder` values are modelled as `String`.
-/

namespace TalkToUgur

set_option maxHeartbeats 1000000
set_option maxRecDepth 100000

/-- Model of Go `unicode.IsSpace` restricted to the Latin-1 range, which is
the set Go checks directly in `strings.TrimSpace` before falling back to
Unicode tables: space, tab, newline, vertical tab, form feed, carriage
return, NEL (U+0085) and NBSP (U+00A0). -/
def goIsSpace (c : Char) : Bool :=
  c = ' ' || c = '\t' || c = '\n' || c.toNat = 11 || c.toNat = 12 || c = '\r' ||
  c.toNat = 0x85 || c.toNat = 0xa0

/-- Model of Go `strings.TrimSpace`: drop leading and trailing space
characters. -/
def goTrimSpace (s : String) : String :=
  ⟨((s.data.dropWhile goIsSpace).reverse.dropWhile goIsSpace).reverse⟩

/-- ASCII case mapping of one character, the fragment of Go
`unicode.ToLower` that is exercised by this client (emotion labels and error
bodies are ASCII). -/
def lowerChar (c : Char) : Char :=
  if 65 ≤ c.toNat ∧ c.toNat ≤ 90 then Char.ofNat (c.toNat + 32) else c

/-- Model of Go `strings.ToLower` (ASCII fragment). -/
def goToLower (s : String) : String :=
  ⟨s.data.map lowerChar⟩

/-- Model of Go `strings.Contains s sub`. -/
def goContains (s sub : String) : Bool :=
  decide (sub.data <:+: s.data)

/-- State of `jsonStreamParser` (client.go), with the two callbacks replaced
by the event lists `replyEvents` (arguments of `onReply`, in order) and
`emotionEvents` (arguments of `onEmotion`, in order). -/
structure ParserState where
  replyBuilder : String
  replyChunk : String
  currentKey : String
  currentValue : String
  currentKeyName : String
  emotion : String
  inString : Bool
  expectValue : Bool
  mode : String
  escape : Bool
  unicodeLeft : Nat
  unicodeBuf : String
  replyEvents : List String
  emotionEvents : List String
deriving DecidableEq, Repr

/-- `newJSONStreamParser` (client.go): all fields start at their Go zero
values. -/
def newJSONStreamParser : ParserState :=
  { replyBuilder := "", replyChunk := "", currentKey := "", currentValue := ""
    currentKeyName := "", emotion := "", inString := false, expectValue := false
    mode := "", escape := false, unicodeLeft := 0, unicodeBuf := ""
    replyEvents := [], emotionEvents := [] }

/-- Value of one hexadecimal digit, as consumed by Go
`strconv.ParseInt(s, 16, 32)`. -/
def hexDigitVal (c : Char) : Option Nat :=
  if 48 ≤ c.toNat ∧ c.toNat ≤ 57 then some (c.toNat - 48)
  else if 97 ≤ c.toNat ∧ c.toNat ≤ 102 then some (c.toNat - 87)
  else if 65 ≤ c.toNat ∧ c.toNat ≤ 70 then some (c.toNat - 55)
  else none

/-- Digit loop of `strconv.ParseInt` in base 16 (empty digit strings are a
syntax error). -/
def parseHexNatAux : Nat → List Char → Option Nat
  | acc, [] => some acc
  | acc, c :: cs =>
    match hexDigitVal c with
    | some d => parseHexNatAux (acc * 16 + d) cs
    | none => none

def parseHexNat (l : List Char) : Option Nat :=
  match l with
  | [] => none
  | _ => parseHexNatAux 0 l

/-- Model of Go `strconv.ParseInt(s, 16, 32)` on the four-character strings
`decodeUnicode` feeds it: an optional sign followed by hex digits.  The
bit-size range check cannot fire on at most four hex digits and is omitted. -/
def parseIntHex (s : String) : Option Int :=
  match s.data with
  | [] => none
  | c :: rest =>
    if c = '+' then (parseHexNat rest).map Int.ofNat
    else if c = '-' then (parseHexNat rest).map (fun n => -(n : Int))
    else (parseHexNat (c :: rest)).map Int.ofNat

/-- `decodeUnicode` (client.go): requires exactly four characters and parses
them as a base-16 integer.  (Go checks the byte length; any four-character
buffer that passes the hex parse is pure ASCII, so the two checks agree.) -/
def decodeUnicode (hexStr : String) : Option Int :=
  if hexStr.length = 4 then parseIntHex hexStr else none

/-- The rune-to-character step of `strings.Builder.WriteRune`: an invalid
rune (negative, a surrogate, or above U+10FFFF) is replaced by U+FFFD. -/
def runeToChar (v : Int) : Char :=
  if 0 ≤ v ∧ (v < 0xd800 ∨ (0xdfff < v ∧ v < 0x110000)) then Char.ofNat v.toNat
  else Char.ofNat 0xfffd

/-- `jsonStreamParser.handleRune` (client.go). -/
def handleRune (p : ParserState) (r : Char) : ParserState :=
  if p.mode = "key" then
    { p with currentKey := p.currentKey.push r }
  else if p.mode = "value" then
    if p.currentKeyName = "reply" then
      { p with replyBuilder := p.replyBuilder.push r
               replyChunk := p.replyChunk.push r }
    else if p.currentKeyName = "emotion" ∧ p.emotion = "" then
      { p with currentValue := p.currentValue.push r }
    else p
  else p

/-- The unescaped-quote handling inside `jsonStreamParser.Feed` (client.go):
closing a key records the current field name; closing a value finalizes the
capture field if it has not been captured yet (invoking `onEmotion`). -/
def closeString (p : ParserState) : ParserState :=
  let p1 := { p with inString := false }
  let p2 :=
    if p1.mode = "key" then
      { p1 with currentKeyName := p1.currentKey, currentKey := "", expectValue := true }
    else if p1.mode = "value" then
      let p15 :=
        if p1.currentKeyName = "emotion" ∧ p1.emotion = "" then
          { p1 with emotion := p1.currentValue
                    emotionEvents := p1.emotionEvents ++ [p1.currentValue] }
        else p1
      { p15 with currentValue := "", expectValue := false }
    else p1
  { p2 with mode := "" }

/-- One iteration of the rune loop of `jsonStreamParser.Feed` (client.go). -/
def feedChar (p : ParserState) (r : Char) : ParserState :=
  if p.unicodeLeft > 0 then
    let p1 := { p with unicodeBuf := p.unicodeBuf.push r, unicodeLeft := p.unicodeLeft - 1 }
    if p1.unicodeLeft = 0 then
      match decodeUnicode p1.unicodeBuf with
      | some v => handleRune { p1 with unicodeBuf := "" } (runeToChar v)
      | none => { p1 with unicodeBuf := "" }
    else p1
  else if p.inString then
    if p.escape then
      let p1 := { p with escape := false }
      if r = '"' ∨ r = '\\' ∨ r = '/' then handleRune p1 r
      else if r = 'b' then handleRune p1 (Char.ofNat 8)
      else if r = 'f' then handleRune p1 (Char.ofNat 12)
      else if r = 'n' then handleRune p1 (Char.ofNat 10)
      else if r = 'r' then handleRune p1 (Char.ofNat 13)
      else if r = 't' then handleRune p1 (Char.ofNat 9)
      else if r = 'u' then { p1 with unicodeLeft := 4 }
      else handleRune p1 r
    else if r = '\\' then { p with escape := true }
    else if r = '"' then closeString p
    else handleRune p r
  else
    if r = '"' then
      { p with inString := true, mode := if p.expectValue then "value" else "key" }
    else if r = ':' then p
    else if r = ',' then { p with expectValue := false, mode := "" }
    else p

/-- The final flush of `jsonStreamParser.Feed` (client.go): if the per-feed
delta buffer is non-empty, invoke `onReply` once with its contents and clear
it. -/
def flushChunk (p : ParserState) : ParserState :=
  if p.replyChunk ≠ "" then
    { p with replyEvents := p.replyEvents ++ [p.replyChunk], replyChunk := "" }
  else p

/-- `jsonStreamParser.Feed` (client.go): iterate the rune loop over the
chunk, then flush the per-feed reply delta. -/
def Feed (p : ParserState) (text : String) : ParserState :=
  flushChunk (text.data.foldl feedChar p)

/-- `jsonStreamParser.SetEmotion` (client.go). -/
def SetEmotion (p : ParserState) (emotion : String) : ParserState :=
  if p.emotion ≠ "" then p
  else
    { p with emotion := emotion
             emotionEvents :=
               if emotion ≠ "" then p.emotionEvents ++ [emotion] else p.emotionEvents }



/-- Clearing the pass-through output fields of a parser state (proof
device: `feedChar` reads none of them). -/
def resetOut (p : ParserState) : ParserState :=
  { p with replyChunk := "", replyEvents := [] }

/-- Total pass-through output of a parser state: every argument already
handed to `onReply`, in order, followed by the pending per-feed delta. -/
def rout (p : ParserState) : String :=
  String.join p.replyEvents ++ p.replyChunk

/-- `Reply` (client.go). -/
structure Reply where
  Text : String
  Emotion : String
deriving DecidableEq, Repr

/-- The part of `db.ChatMessage` the client reads: role and content. -/
structure ChatMessageDB where
  role : String
  content : String
deriving DecidableEq, Repr

/-- `chatMessage` (client.go). -/
structure chatMessage where
  Role : String
  Content : String
  Refusal : String
deriving DecidableEq, Repr

/-- JSON-like values, used to model the Go `map[string]any` schema literals
of `buildStructuredFormat` as association lists in insertion order. -/
inductive JVal where
  | str (s : String)
  | bool (b : Bool)
  | arr (elems : List JVal)
  | obj (fields : List (String × JVal))

/-- `jsonSchema` (client.go). -/
structure jsonSchema where
  Name : String
  Description : String
  Schema : List (String × JVal)
  Strict : Bool

/-- `responseFormat` (client.go); `none` models the omitted `json_schema`
field.  The Go field `Type` is spelled `Typ` here, `Type` being a Lean
keyword. -/
structure responseFormat where
  Typ : String
  JsonSchema : Option jsonSchema

/-- `chatRequest` (client.go).  `Temperature` is `float64` in Go; the
negotiator only compares it against zero and overwrites it with zero, so a
rational number captures its role exactly. -/
structure chatRequest where
  Model : String
  Messages : List chatMessage
  Temperature : Rat
  Stream : Bool
  ResponseFormat : responseFormat

/-- `apiError` (client.go). -/
structure apiError where
  status : Nat
  body : String
deriving DecidableEq, Repr

/-- An error surfaced by one `doChatStreamRequest` call: a structured
`*apiError` (HTTP status ≥ 400) or any other error (network failure and so
on), distinguished because `errors.As` matches only the former. -/
inductive TransportErr where
  | api (e : apiError)
  | other (msg : String)
deriving DecidableEq, Repr

/-- `shouldFallbackToJSONMode` (client.go). -/
def shouldFallbackToJSONMode (status : Nat) (body : String) : Bool :=
  if status ≠ 400 then false
  else
    let lowered := goToLower body
    goContains lowered "response_format" || goContains lowered "json_schema" ||
    goContains lowered "structured outputs" || goContains lowered "not supported"

/-- `shouldRetryWithoutTemperature` (client.go). -/
def shouldRetryWithoutTemperature (status : Nat) (body : String) : Bool :=
  if status ≠ 400 then false
  else
    let lowered := goToLower body
    goContains lowered "temperature" &&
      (goContains lowered "unsupported" || goContains lowered "unsupported_value")

/-- Result of an attempt chain: latest transport result, current (possibly
downgraded) request, the log of requests attempted so far, and the log of
downgrades applied so far (a "temperature" tag each time a stage assigns
`Temperature = 0`, a "response_format" tag each time a stage assigns the
`json_object` response format). -/
abbrev NegoState := Except TransportErr Unit × chatRequest × List chatRequest × List String

/-- `Client.doChatStreamRequestWithFallback` (client.go lines 336-360),
instrumented with the list of transport attempts and the list of applied
downgrades.  The transport is the parameter `t`; a successful attempt's
stream body is modelled as `Unit`.  The identical three-stage conditional
retry chain appears inline in `Client.GenerateReply` (lines 127-148) for
the buffered path. -/
def doChatStreamRequestWithFallback (t : chatRequest → Except TransportErr Unit)
    (reqBody : chatRequest) : NegoState :=
  let s1 : NegoState := (t reqBody, reqBody, [reqBody], [])
  let s2 : NegoState :=
    match s1 with
    | (Except.error (TransportErr.api e), req, log, dg) =>
      if shouldRetryWithoutTemperature e.status e.body then
        let req2 := { req with Temperature := 0 }
        (t req2, req2, log ++ [req2], dg ++ ["temperature"])
      else s1
    | _ => s1
  let s3 : NegoState :=
    match s2 with
    | (Except.error (TransportErr.api e), req, log, dg) =>
      if shouldFallbackToJSONMode e.status e.body then
        let req2 := { req with ResponseFormat := { Typ := "json_object", JsonSchema := none } }
        (t req2, req2, log ++ [req2], dg ++ ["response_format"])
      else s2
    | _ => s2
  let s4 : NegoState :=
    match s3 with
    | (Except.error (TransportErr.api e), req, log, dg) =>
      if shouldRetryWithoutTemperature e.status e.body ∧ req.Temperature ≠ 0 then
        let req2 := { req with Temperature := 0 }
        (t req2, req2, log ++ [req2], dg ++ ["temperature"])
      else s3
    | _ => s3
  s4

/-- `Client.buildEmotionSchema` (client.go). -/
def buildEmotionSchema (emotions : List String) : List (String × JVal) :=
  let prop : List (String × JVal) := [("type", JVal.str "string")]
  if emotions.length > 0 then prop ++ [("enum", JVal.arr (emotions.map JVal.str))]
  else prop

/-- `Client.buildStructuredFormat` (client.go). -/
def buildStructuredFormat (emotions : List String) : responseFormat :=
  let schema : List (String × JVal) :=
    [("type", JVal.str "object"),
     ("additionalProperties", JVal.bool false),
     ("properties", JVal.obj
        [("reply", JVal.obj [("type", JVal.str "string")]),
         ("emotion", JVal.obj (buildEmotionSchema emotions))]),
     ("required", JVal.arr [JVal.str "reply", JVal.str "emotion"])]
  { Typ := "json_schema"
    JsonSchema := some
      { Name := "chat_reply"
        Description := "Structured response for chat reply and emotion."
        Schema := schema
        Strict := true } }

/-- `aiJSON` (client.go). -/
structure aiJSON where
  Reply : String
  Emotion : String
deriving DecidableEq, Repr

/-- `parseAIJSON` (client.go), parametrized by the JSON decoder `um`
modelling `json.Unmarshal` into `aiJSON`.  `strings.Index` and
`strings.LastIndex` return byte offsets in Go; the braces searched for are
ASCII, so character offsets give the same substring. -/
def parseAIJSON (um : String → Option aiJSON) (content : String) : Option aiJSON :=
  match um content with
  | some parsed => some parsed
  | none =>
    match content.data.findIdx? (fun c => c = '{'),
        (content.data.reverse.findIdx? (fun c => c = '}')) with
    | some start, some revStop =>
      let stop := content.data.length - 1 - revStop
      if start < stop then
        um ⟨(content.data.drop start).take (stop + 1 - start)⟩
      else none
    | _, _ => none

/-- The `for` loop of `normalizeEmotion` (client.go): return the normalized
input as soon as it matches a normalized allowed value. -/
def normalizeEmotionLoop (e : String) : List String → String
  | [] => ""
  | x :: xs => if e = goToLower (goTrimSpace x) then e else normalizeEmotionLoop e xs

/-- `normalizeEmotion` (client.go). -/
def normalizeEmotion (emotion : String) (allowed : List String) : String :=
  normalizeEmotionLoop (goToLower (goTrimSpace emotion)) allowed

/-- `fallbackEmotion` (client.go). -/
def fallbackEmotion : List String → String
  | [] => "neutral"
  | e :: es => if goTrimSpace e ≠ "" then goToLower (goTrimSpace e) else fallbackEmotion es

/-- The emotion resolution shared by `Client.GenerateReply` (lines 170-173)
and `Client.StreamReply` (lines 280-283): normalize, then fall back when the
result is empty. -/
def resolveEmotion (raw : String) (allowed : List String) : String :=
  let e := normalizeEmotion raw allowed
  if e = "" then fallbackEmotion allowed else e

/-- Modelled from the spec's words for claim C5: the fallback is "the first
non-empty member of E lower-cased, or neutral if E has no non-empty
member". -/
def specFallbackEmotion : List String → String
  | [] => "neutral"
  | e :: es => if e ≠ "" then goToLower e else specFallbackEmotion es

/-- Reference semantics for the amended claim C5's fallback: the first
allowed value whose trim is non-empty, trimmed and lower-cased, or
"neutral" when every allowed value is whitespace-only. -/
def specTrimmedFallback (E : List String) : String :=
  match E.find? (fun e => goTrimSpace e != "") with
  | some e => goToLower (goTrimSpace e)
  | none => "neutral"

/-- The response handling of `Client.GenerateReply` (client.go lines
150-178), from the decoded choice list onward, parametrized by the JSON
decoder `um`. -/
def generateReplyTail (um : String → Option aiJSON) (emotions : List String)
    (choices : List chatMessage) : Except String Reply :=
  match choices with
  | [] => Except.error "openai api returned no choices"
  | msg :: _ =>
    let content := goTrimSpace msg.Content
    if content = "" then
      if goTrimSpace msg.Refusal ≠ "" then Except.error "openai api refused to answer"
      else Except.error "openai api returned empty content"
    else
      match parseAIJSON um content with
      | none => Except.ok { Text := content, Emotion := fallbackEmotion emotions }
      | some aiPayload =>
        if aiPayload.Reply = "" then
          Except.ok { Text := content, Emotion := fallbackEmotion emotions }
        else
          Except.ok { Text := goTrimSpace aiPayload.Reply
                      Emotion := resolveEmotion aiPayload.Emotion emotions }

/-- The stream-end assembly of `Client.StreamReply` (client.go lines
261-288), parametrized by the JSON decoder `um`.  Returns the result, the
final parser state, and whether the raw-stream re-parse (`parseAIJSON`) was
invoked. -/
def streamAssemble (um : String → Option aiJSON) (emotions : List String)
    (p0 : ParserState) (raw refusal : String) :
    Except String Reply × ParserState × Bool :=
  let content1 := goTrimSpace p0.replyBuilder
  let step :=
    if content1 = "" then
      let rawContent := goTrimSpace raw
      if rawContent ≠ "" then
        match parseAIJSON um rawContent with
        | some parsed =>
          if parsed.Reply ≠ "" then
            let p1 := if p0.emotion = "" then SetEmotion p0 parsed.Emotion else p0
            (goTrimSpace parsed.Reply, p1, true)
          else (content1, p0, true)
        | none => (content1, p0, true)
      else (content1, p0, false)
    else (content1, p0, false)
  match step with
  | (content2, p1, reparsed) =>
    if content2 = "" then
      if goTrimSpace refusal ≠ "" then
        (Except.error "openai api refused to answer", p1, reparsed)
      else (Except.error "openai api returned empty content", p1, reparsed)
    else
      (Except.ok { Text := goTrimSpace content2
                   Emotion := resolveEmotion p1.emotion emotions }, p1, reparsed)

/-- `Client.StreamReply` (client.go), from the sequence of SSE content
deltas onward: feed every delta to a fresh extractor while accumulating the
raw stream, then assemble the result. -/
def StreamReplyModel (um : String → Option aiJSON) (emotions : List String)
    (deltas : List String) (refusal : String) :
    Except String Reply × ParserState × Bool :=
  streamAssemble um emotions (List.foldl Feed newJSONStreamParser deltas)
    (String.join deltas) refusal

/-- Whether an assembled result is an error. -/
def isErrorB (r : Except String Reply) : Bool :=
  match r with
  | Except.error _ => true
  | Except.ok _ => false

/-- Whether the raw-stream re-parse yields usable reply text (used to state
claim C6). -/
def reparseYieldsReply (um : String → Option aiJSON) (raw : String) : Bool :=
  match parseAIJSON um raw with
  | some a => goTrimSpace a.Reply != ""
  | none => false

/-- The history loop shared by `Client.GenerateReply` (lines 111-117) and
`Client.StreamReply` (lines 195-201): append each history entry whose role
is user or assistant. -/
def appendHistory (messages : List chatMessage) (history : List ChatMessageDB) :
    List chatMessage :=
  history.foldl
    (fun acc msg =>
      if msg.role = "user" ∨ msg.role = "assistant" then
        acc ++ [{ Role := msg.role, Content := msg.content, Refusal := "" }]
      else acc)
    messages

/-- Message assembly of both request paths: the system message followed by
the filtered history. -/
def buildMessages (systemContent : String) (history : List ChatMessageDB) :
    List chatMessage :=
  appendHistory [{ Role := "system", Content := systemContent, Refusal := "" }] history

/-- Tokens of a well-formed JSON string body, used to quantify over all
well-formed flat-object texts in claims C2 and C3. -/
inductive JTok where
  | plain (c : Char)
  | escQuote
  | escBackslash
  | escSlash
  | escB
  | escF
  | escN
  | escR
  | escT
  | escU (a b c d : Char)
deriving DecidableEq, Repr

/-- The source characters of one token. -/
def JTok.render : JTok → List Char
  | .plain c => [c]
  | .escQuote => ['\\', '"']
  | .escBackslash => ['\\', '\\']
  | .escSlash => ['\\', '/']
  | .escB => ['\\', 'b']
  | .escF => ['\\', 'f']
  | .escN => ['\\', 'n']
  | .escR => ['\\', 'r']
  | .escT => ['\\', 't']
  | .escU a b c d => ['\\', 'u', a, b, c, d]

/-- The scalar a token denotes: this is the claim's reference decoding —
quote, backslash and slash literally, the control shorthands to their
control characters, and a hex quadruple to the corresponding Unicode
scalar. -/
def JTok.decode : JTok → Char
  | .plain c => c
  | .escQuote => '"'
  | .escBackslash => '\\'
  | .escSlash => '/'
  | .escB => Char.ofNat 8
  | .escF => Char.ofNat 12
  | .escN => Char.ofNat 10
  | .escR => Char.ofNat 13
  | .escT => Char.ofNat 9
  | .escU a b c d =>
    match hexDigitVal a, hexDigitVal b, hexDigitVal c, hexDigitVal d with
    | some da, some db, some dc, some dd => Char.ofNat (((da * 16 + db) * 16 + dc) * 16 + dd)
    | _, _, _, _ => 'x'

/-- Well-formedness of one token: a plain character is neither a quote nor
a backslash, and the four characters of a unicode escape are hex digits
denoting a Unicode scalar value (not a surrogate). -/
def JTok.okb : JTok → Bool
  | .plain c => !(c = '"' || c = '\\')
  | .escU a b c d =>
    match hexDigitVal a, hexDigitVal b, hexDigitVal c, hexDigitVal d with
    | some da, some db, some dc, some dd =>
      let v := ((da * 16 + db) * 16 + dc) * 16 + dd
      decide (v < 0xd800) || (decide (0xdfff < v) && decide (v < 0x110000))
    | _, _, _, _ => false
  | _ => true

/-- A JSON string literal: quote, token renderings, quote. -/
def strTokChars (ts : List JTok) : List Char :=
  '"' :: (ts.map JTok.render).flatten ++ ['"']

/-- The decoded content of a token list. -/
def decodeToks (ts : List JTok) : String :=
  ⟨ts.map JTok.decode⟩

/-- JSON whitespace. -/
def isJSONWS (c : Char) : Bool :=
  c = ' ' || c = '\t' || c = '\n' || c = '\r'

/-- One key-value pair of a flat JSON object, with its surrounding
whitespace. -/
structure JPair where
  ws0 : List Char
  key : List JTok
  ws1 : List Char
  ws2 : List Char
  val : List JTok
  ws3 : List Char
deriving DecidableEq, Repr

def JPair.okb (q : JPair) : Bool :=
  q.ws0.all isJSONWS && q.key.all JTok.okb && q.ws1.all isJSONWS &&
  q.ws2.all isJSONWS && q.val.all JTok.okb && q.ws3.all isJSONWS

def JPair.render (q : JPair) : List Char :=
  q.ws0 ++ strTokChars q.key ++ q.ws1 ++ [':'] ++ q.ws2 ++ strTokChars q.val ++ q.ws3

def JPair.decodedKey (q : JPair) : String := decodeToks q.key

def JPair.decodedVal (q : JPair) : String := decodeToks q.val

/-- The pair renderings joined with commas. -/
def renderPairs : List JPair → List Char
  | [] => []
  | [q] => q.render
  | q :: rest => q.render ++ ',' :: renderPairs rest

/-- The full source text of a flat JSON object with the given pairs. -/
def renderObj (ps : List JPair) : String :=
  ⟨'{' :: (renderPairs ps ++ ['}'])⟩

def pairsOk (ps : List JPair) : Bool := ps.all JPair.okb

/-- Reference semantics (the spec's words): the fully decoded value of the
"reply" field of the flat object, or empty when the field is absent. -/
def specReplyValue (ps : List JPair) : String :=
  match ps.find? (fun q => q.decodedKey == "reply") with
  | some q => q.decodedVal
  | none => ""

/-- Reference semantics for the capture field: the decoded value of the
first fully-closed "emotion" pair whose value is non-empty, or empty when
there is none. -/
def specEmotionValue (ps : List JPair) : String :=
  match ((ps.filter (fun q => q.decodedKey == "emotion")).map JPair.decodedVal).find?
      (fun v => v != "") with
  | some v => v
  | none => ""

/-- Concatenated decoded values of all "reply"-keyed pairs, in order. -/
def replyJoin (ps : List JPair) : String :=
  String.join ((ps.filter (fun q => q.decodedKey == "reply")).map JPair.decodedVal)

/-- The capture state after a sequence of pairs, starting from `em`. -/
def emFold (em : String) : List JPair → String
  | [] => em
  | q :: rest =>
    emFold (if q.decodedKey = "emotion" ∧ em = "" then q.decodedVal else em) rest

/-- The capture-callback arguments produced by a sequence of pairs,
starting with capture state `em`. -/
def emEvents (em : String) : List JPair → List String
  | [] => []
  | q :: rest =>
    (if q.decodedKey = "emotion" ∧ em = "" then [q.decodedVal] else []) ++
      emEvents (if q.decodedKey = "emotion" ∧ em = "" then q.decodedVal else em) rest

/-- The parser-state invariant holding between pairs of a flat object. -/
def Ready (p : ParserState) : Prop :=
  p.inString = false ∧ p.escape = false ∧ p.unicodeLeft = 0 ∧ p.unicodeBuf = "" ∧
  p.mode = "" ∧ p.expectValue = false ∧ p.currentKey = "" ∧ p.currentValue = ""

/-- Invariant of the capture-event list: at most one non-empty argument is
ever delivered, it is delivered only when the capture slot was empty, and
it equals the finalized capture value. -/
def EmoInv (p : ParserState) : Prop :=
  (p.emotion = "" → p.emotionEvents.countP (fun s => s != "") = 0) ∧
  p.emotionEvents.countP (fun s => s != "") ≤ 1 ∧
  (∀ e ∈ p.emotionEvents, e ≠ "" → e = p.emotion)

theorem strAppendEmpty (s : String) : s ++ "" = s := by
  apply String.ext; simp [String.data_append]

theorem strAppendAssoc (a b c : String) : a ++ b ++ c = a ++ (b ++ c) := by
  apply String.ext; simp [String.data_append]

theorem strPushEmpty (s : String) (c : Char) : s ++ ("".push c) = s.push c := by
  apply String.ext; simp [String.data_append, String.data_push]

theorem strEmptyAppend (s : String) : "" ++ s = s := by
  apply String.ext; simp [String.data_append]

theorem joinAux (cs : List String) (a : String) :
    List.foldl (fun x y => x ++ y) a cs = a ++ String.join cs := by
  induction cs generalizing a with
  | nil => simp [String.join, strAppendEmpty]
  | cons c cs ih =>
    simp only [String.join] at ih ⊢
    simp only [List.foldl_cons]
    rw [ih, ih ("" ++ c), strEmptyAppend, strAppendAssoc]

theorem joinCons (c : String) (cs : List String) : String.join (c :: cs) = c ++ String.join cs := by
  show List.foldl (fun x y => x ++ y) ("" ++ c) cs = _
  rw [joinAux]; apply String.ext; simp [String.data_append]

theorem joinSnoc (cs : List String) (c : String) : String.join (cs ++ [c]) = String.join cs ++ c := by
  induction cs with
  | nil => simp [joinCons, String.join, strAppendEmpty]
  | cons d ds ih => rw [List.cons_append, joinCons, ih, joinCons, strAppendAssoc]

theorem handleRune_split (p : ParserState) (r : Char) :
    handleRune p r =
      { handleRune (resetOut p) r with
          replyChunk := p.replyChunk ++ (handleRune (resetOut p) r).replyChunk,
          replyEvents := p.replyEvents } := by
  cases p
  simp only [handleRune, resetOut]
  split_ifs <;> simp_all [strAppendEmpty, strPushEmpty]

theorem closeString_split (p : ParserState) :
    closeString p =
      { closeString (resetOut p) with
          replyChunk := p.replyChunk ++ (closeString (resetOut p)).replyChunk,
          replyEvents := p.replyEvents } := by
  cases p
  simp only [closeString, resetOut]
  split_ifs <;> simp_all [strAppendEmpty, strPushEmpty]

theorem feedChar_split (p : ParserState) (r : Char) :
    feedChar p r =
      { feedChar (resetOut p) r with
          replyChunk := p.replyChunk ++ (feedChar (resetOut p) r).replyChunk,
          replyEvents := p.replyEvents } := by
  cases p with
  | mk rb rc ck cv ckn em instr ev md esc ul ub re ee =>
  by_cases h1 : ul > 0
  · by_cases h2 : ul - 1 = 0
    · rcases hdec : decodeUnicode (ub.push r) with _ | v
      · simp only [feedChar, resetOut, if_pos h1, if_pos h2, hdec]
        simp [ParserState.mk.injEq, strAppendEmpty]
      · simp only [feedChar, resetOut, if_pos h1, if_pos h2, hdec]
        rw [handleRune_split]; rfl
    · simp only [feedChar, resetOut, if_pos h1, if_neg h2]
      simp [ParserState.mk.injEq, strAppendEmpty]
  · by_cases h3 : instr = true
    · by_cases h4 : esc = true
      · by_cases h5 : r = '"' ∨ r = '\\' ∨ r = '/'
        · simp only [feedChar, resetOut, if_neg h1, if_pos h3, if_pos h4, if_pos h5]
          rw [handleRune_split]; rfl
        · by_cases h6 : r = 'b'
          · simp only [feedChar, resetOut, if_neg h1, if_pos h3, if_pos h4, if_neg h5, if_pos h6]
            rw [handleRune_split]; rfl
          · by_cases h7 : r = 'f'
            · simp only [feedChar, resetOut, if_neg h1, if_pos h3, if_pos h4, if_neg h5, if_neg h6,
                if_pos h7]
              rw [handleRune_split]; rfl
            · by_cases h8 : r = 'n'
              · simp only [feedChar, resetOut, if_neg h1, if_pos h3, if_pos h4, if_neg h5, if_neg h6,
                  if_neg h7, if_pos h8]
                rw [handleRune_split]; rfl
              · by_cases h9 : r = 'r'
                · simp only [feedChar, resetOut, if_neg h1, if_pos h3, if_pos h4, if_neg h5,
                    if_neg h6, if_neg h7, if_neg h8, if_pos h9]
                  rw [handleRune_split]; rfl
                · by_cases h10 : r = 't'
                  · simp only [feedChar, resetOut, if_neg h1, if_pos h3, if_pos h4, if_neg h5,
                      if_neg h6, if_neg h7, if_neg h8, if_neg h9, if_pos h10]
                    rw [handleRune_split]; rfl
                  · by_cases h11 : r = 'u'
                    · simp only [feedChar, resetOut, if_neg h1, if_pos h3, if_pos h4, if_neg h5,
                        if_neg h6, if_neg h7, if_neg h8, if_neg h9, if_neg h10, if_pos h11]
                      simp [ParserState.mk.injEq, strAppendEmpty]
                    · simp only [feedChar, resetOut, if_neg h1, if_pos h3, if_pos h4, if_neg h5,
                        if_neg h6, if_neg h7, if_neg h8, if_neg h9, if_neg h10, if_neg h11]
                      rw [handleRune_split]; rfl
      · by_cases h12 : r = '\\'
        · simp only [feedChar, resetOut, if_neg h1, if_pos h3, if_neg h4, if_pos h12]
          simp [ParserState.mk.injEq, strAppendEmpty]
        · by_cases h13 : r = '"'
          · simp only [feedChar, resetOut, if_neg h1, if_pos h3, if_neg h4, if_neg h12, if_pos h13]
            rw [closeString_split]; rfl
          · simp only [feedChar, resetOut, if_neg h1, if_pos h3, if_neg h4, if_neg h12, if_neg h13]
            rw [handleRune_split]; rfl
    · by_cases h14 : r = '"'
      · simp only [feedChar, resetOut, if_neg h1, if_neg h3, if_pos h14]
        simp [ParserState.mk.injEq, strAppendEmpty]
      · by_cases h15 : r = ':'
        · simp only [feedChar, resetOut, if_neg h1, if_neg h3, if_neg h14, if_pos h15]
          simp [ParserState.mk.injEq, strAppendEmpty]
        · by_cases h16 : r = ','
          · simp only [feedChar, resetOut, if_neg h1, if_neg h3, if_neg h14, if_neg h15, if_pos h16]
            simp [ParserState.mk.injEq, strAppendEmpty]
          · simp only [feedChar, resetOut, if_neg h1, if_neg h3, if_neg h14, if_neg h15, if_neg h16]
            simp [ParserState.mk.injEq, strAppendEmpty]

theorem resetOut_resetOut (p : ParserState) : resetOut (resetOut p) = resetOut p := rfl

theorem feedChar_replyEvents (p : ParserState) (r : Char) :
    (feedChar p r).replyEvents = p.replyEvents := by
  rw [feedChar_split]

theorem feedChar_replyChunk (p : ParserState) (r : Char) :
    (feedChar p r).replyChunk = p.replyChunk ++ (feedChar (resetOut p) r).replyChunk := by
  conv_lhs => rw [feedChar_split]

theorem feedChar_resetOut (p : ParserState) (r : Char) :
    resetOut (feedChar p r) = resetOut (feedChar (resetOut p) r) := by
  conv_lhs => rw [feedChar_split]
  rfl

theorem foldl_feedChar_replyEvents (l : List Char) (p : ParserState) :
    (List.foldl feedChar p l).replyEvents = p.replyEvents := by
  induction l generalizing p with
  | nil => rfl
  | cons c cs ih => rw [List.foldl_cons, ih, feedChar_replyEvents]

theorem foldl_feedChar_resetOut (l : List Char) (p : ParserState) :
    resetOut (List.foldl feedChar p l) = resetOut (List.foldl feedChar (resetOut p) l) := by
  induction l generalizing p with
  | nil => rw [List.foldl_nil, List.foldl_nil, resetOut_resetOut]
  | cons c cs ih =>
    rw [List.foldl_cons, List.foldl_cons, ih, feedChar_resetOut,
      ← ih (feedChar (resetOut p) c)]

theorem foldl_feedChar_replyChunk (l : List Char) (p : ParserState) :
    (List.foldl feedChar p l).replyChunk =
      p.replyChunk ++ (List.foldl feedChar (resetOut p) l).replyChunk := by
  induction l generalizing p with
  | nil => rw [List.foldl_nil, List.foldl_nil]; exact (strAppendEmpty _).symm
  | cons c cs ih =>
    rw [List.foldl_cons, List.foldl_cons, ih, ih (feedChar (resetOut p) c),
      feedChar_replyChunk, feedChar_resetOut, strAppendAssoc]

theorem flushChunk_replyChunk (p : ParserState) : (flushChunk p).replyChunk = "" := by
  unfold flushChunk
  split
  · rfl
  · next h => simpa using h

theorem flushChunk_resetOut (p : ParserState) : resetOut (flushChunk p) = resetOut p := by
  unfold flushChunk
  split <;> rfl

theorem flushChunk_rout (p : ParserState) : rout (flushChunk p) = rout p := by
  unfold flushChunk rout
  split
  · simp only [joinSnoc]
    exact strAppendEmpty _
  · rfl

theorem Feed_replyChunk (p : ParserState) (s : String) : (Feed p s).replyChunk = "" :=
  flushChunk_replyChunk _

theorem Feed_resetOut (p : ParserState) (s : String) :
    resetOut (Feed p s) = resetOut (List.foldl feedChar (resetOut p) s.data) := by
  unfold Feed
  rw [flushChunk_resetOut, foldl_feedChar_resetOut]

theorem Feed_rout (p : ParserState) (s : String) :
    rout (Feed p s) = rout p ++ (List.foldl feedChar (resetOut p) s.data).replyChunk := by
  unfold Feed
  rw [flushChunk_rout]
  unfold rout
  rw [foldl_feedChar_replyEvents, foldl_feedChar_replyChunk, strAppendAssoc]

theorem foldl_feedChar_rout (l : List Char) (p : ParserState) :
    rout (List.foldl feedChar p l) =
      rout p ++ (List.foldl feedChar (resetOut p) l).replyChunk := by
  unfold rout
  rw [foldl_feedChar_replyEvents, foldl_feedChar_replyChunk, strAppendAssoc]

theorem Feed_append_resetOut (p : ParserState) (c d : String) :
    resetOut (Feed (Feed p c) d) = resetOut (Feed p (c ++ d)) := by
  rw [Feed_resetOut (Feed p c) d, Feed_resetOut p c, Feed_resetOut p (c ++ d),
    String.data_append, List.foldl_append,
    foldl_feedChar_resetOut d.data (List.foldl feedChar (resetOut p) c.data)]

theorem Feed_append_rout (p : ParserState) (c d : String) :
    rout (Feed (Feed p c) d) = rout (Feed p (c ++ d)) := by
  rw [Feed_rout (Feed p c) d, Feed_rout p (c ++ d), String.data_append, List.foldl_append]
  rw [Feed_rout p c, Feed_resetOut p c]
  rw [foldl_feedChar_replyChunk d.data (List.foldl feedChar (resetOut p) c.data)]
  rw [strAppendAssoc]

theorem Feed_empty_resetOut (p : ParserState) : resetOut (Feed p "") = resetOut p := by
  unfold Feed
  rw [show ("" : String).data = [] from rfl, List.foldl_nil, flushChunk_resetOut]

theorem Feed_empty_rout (p : ParserState) : rout (Feed p "") = rout p := by
  unfold Feed
  rw [show ("" : String).data = [] from rfl, List.foldl_nil, flushChunk_rout]

theorem foldl_Feed_vs_join (cs : List String) (p : ParserState) :
    resetOut (List.foldl Feed p cs) = resetOut (Feed p (String.join cs)) ∧
    rout (List.foldl Feed p cs) = rout (Feed p (String.join cs)) := by
  induction cs generalizing p with
  | nil =>
    rw [List.foldl_nil, show String.join [] = "" from rfl, Feed_empty_resetOut, Feed_empty_rout]
    exact ⟨rfl, rfl⟩
  | cons c cs ih =>
    rw [List.foldl_cons, joinCons]
    refine ⟨?_, ?_⟩
    · rw [(ih (Feed p c)).1, Feed_append_resetOut]
    · rw [(ih (Feed p c)).2, Feed_append_rout]

theorem foldl_Feed_replyChunk (cs : List String) (p : ParserState)
    (h : p.replyChunk = "") : (List.foldl Feed p cs).replyChunk = "" := by
  induction cs generalizing p with
  | nil => exact h
  | cons c cs ih => rw [List.foldl_cons]; exact ih _ (Feed_replyChunk p c)

/-- Claim C1: chunk-boundary independence of the incremental field
extractor.  For every input string and every way of splitting it at
character boundaries into chunks, feeding the chunks in order to a fresh
`jsonStreamParser` via `Feed` produces the same concatenation of
pass-through (`onReply`) callback arguments as feeding the whole string in
a single `Feed` call. -/
theorem C1_chunk_boundary_independence (s : String) (cs : List String)
    (hsplit : String.join cs = s) :
    String.join ((List.foldl Feed newJSONStreamParser cs).replyEvents) =
    String.join ((Feed newJSONStreamParser s).replyEvents) := by
  subst hsplit
  have h3 := (foldl_Feed_vs_join cs newJSONStreamParser).2
  unfold rout at h3
  rw [foldl_Feed_replyChunk cs newJSONStreamParser rfl, Feed_replyChunk,
    strAppendEmpty, strAppendEmpty] at h3
  exact h3

/-- Concrete instance of C1: the spec's end-to-end example, split into three
chunks mid-token, agrees with the single-shot feed. -/
theorem C1_chunk_boundary_independence_witness :
    String.join ["\"emotion\":\"happ", "y\",\"reply\":\"He", "llo!\""] =
        "\"emotion\":\"happy\",\"reply\":\"Hello!\"" ∧
    String.join ((List.foldl Feed newJSONStreamParser
        ["\"emotion\":\"happ", "y\",\"reply\":\"He", "llo!\""]).replyEvents) =
    String.join ((Feed newJSONStreamParser
        "\"emotion\":\"happy\",\"reply\":\"Hello!\"").replyEvents) :=
  ⟨by decide, C1_chunk_boundary_independence _ _ (by decide)⟩

theorem charToNatOfNat (n : Nat) (h : Nat.isValidChar n) : (Char.ofNat n).toNat = n := by
  simp only [Char.ofNat, h, dif_pos]
  simp [Char.ofNatAux, Char.toNat, UInt32.toNat, UInt32.ofNat']

theorem lowerChar_fix (c : Char) : lowerChar (lowerChar c) = lowerChar c := by
  unfold lowerChar
  by_cases h : 65 ≤ c.toNat ∧ c.toNat ≤ 90
  · rw [if_pos h]
    have hv : Nat.isValidChar (c.toNat + 32) := Or.inl (by omega)
    have ht : (Char.ofNat (c.toNat + 32)).toNat = c.toNat + 32 := charToNatOfNat _ hv
    rw [if_neg]
    omega
  · rw [if_neg h, if_neg h]

theorem listMapCongr {l : List Char} {f g : Char → Char} (h : ∀ a ∈ l, f a = g a) :
    l.map f = l.map g := by
  induction l with
  | nil => rfl
  | cons a as ih => simp only [List.map_cons, h a (by simp)]
                    rw [ih (fun b hb => h b (by simp [hb]))]

theorem goToLower_idem (s : String) : goToLower (goToLower s) = goToLower s := by
  unfold goToLower
  apply String.ext
  simp only [List.map_map]
  exact listMapCongr (fun a _ => lowerChar_fix a)

theorem normalizeEmotionLoop_cases (e : String) (E : List String) :
    (normalizeEmotionLoop e E = e ∧ ∃ x ∈ E, e = goToLower (goTrimSpace x)) ∨
    normalizeEmotionLoop e E = "" := by
  induction E with
  | nil => exact Or.inr rfl
  | cons x xs ih =>
    unfold normalizeEmotionLoop
    by_cases h : e = goToLower (goTrimSpace x)
    · exact Or.inl ⟨by rw [if_pos h], x, by simp, h⟩
    · rw [if_neg h]
      rcases ih with ⟨h1, y, hy, he⟩ | h1
      · exact Or.inl ⟨h1, y, by simp [hy], he⟩
      · exact Or.inr h1

theorem fallbackEmotion_cases (E : List String) :
    (∃ x ∈ E, fallbackEmotion E = goToLower (goTrimSpace x)) ∨
    (fallbackEmotion E = "neutral" ∧ ∀ x ∈ E, goTrimSpace x = "") := by
  induction E with
  | nil => exact Or.inr ⟨rfl, by simp⟩
  | cons x xs ih =>
    unfold fallbackEmotion
    by_cases h : goTrimSpace x ≠ ""
    · exact Or.inl ⟨x, by simp, by rw [if_pos h]⟩
    · rw [if_neg h]
      push_neg at h
      rcases ih with ⟨y, hy, he⟩ | ⟨h1, h2⟩
      · exact Or.inl ⟨y, by simp [hy], he⟩
      · refine Or.inr ⟨h1, ?_⟩
        intro z hz
        rcases List.mem_cons.mp hz with rfl | hz
        · exact h
        · exact h2 z hz

theorem fallbackEmotion_cons (e : String) (es : List String) :
    fallbackEmotion (e :: es) =
      if goTrimSpace e ≠ "" then goToLower (goTrimSpace e) else fallbackEmotion es := rfl

theorem fallbackEmotion_eq_specTrimmed (E : List String) :
    fallbackEmotion E = specTrimmedFallback E := by
  induction E with
  | nil => rfl
  | cons e es ih =>
    by_cases h : goTrimSpace e = ""
    · rw [fallbackEmotion_cons, if_neg (by simp [h]), ih]
      unfold specTrimmedFallback
      simp [List.find?_cons, h]
    · rw [fallbackEmotion_cons, if_pos h]
      unfold specTrimmedFallback
      simp [List.find?_cons, h]

/-- Claim C5 (amended): the emotion used in the final reply is lower-cased,
and is either the raw input trimmed and lower-cased when that matches some
allowed value compared after trimming and lower-casing both sides, or the
fallback, which is exactly the first allowed value whose trim is non-empty,
trimmed and lower-cased, or the literal "neutral" when every allowed value
is whitespace-only.  (The code trims allowed values before comparing and
before building the fallback; the frozen claim's untrimmed reading fails,
see `C5_counterexample`.) -/
theorem C5_emotion_normalization (s : String) (E : List String) :
    goToLower (resolveEmotion s E) = resolveEmotion s E ∧
    ((resolveEmotion s E = goToLower (goTrimSpace s) ∧
        ∃ e ∈ E, goToLower (goTrimSpace s) = goToLower (goTrimSpace e)) ∨
      resolveEmotion s E = specTrimmedFallback E) := by
  unfold resolveEmotion normalizeEmotion
  rcases normalizeEmotionLoop_cases (goToLower (goTrimSpace s)) E with ⟨h1, x, hx, he⟩ | h1
  · rw [h1]
    by_cases hz : goToLower (goTrimSpace s) = ""
    · rw [if_pos hz]
      refine ⟨?_, Or.inr (fallbackEmotion_eq_specTrimmed E)⟩
      rcases fallbackEmotion_cases E with ⟨y, hy, hf⟩ | ⟨hf, hall⟩
      · rw [hf, goToLower_idem]
      · rw [hf]
        decide
    · rw [if_neg hz]
      exact ⟨by rw [he, goToLower_idem], Or.inl ⟨rfl, x, hx, he⟩⟩
  · rw [h1, if_pos rfl]
    refine ⟨?_, Or.inr (fallbackEmotion_eq_specTrimmed E)⟩
    rcases fallbackEmotion_cases E with ⟨y, hy, hf⟩ | ⟨hf, hall⟩
    · rw [hf, goToLower_idem]
    · rw [hf]
      decide

/-- Claim C5 counterexample: with allowed list `[" "]` and raw emotion
`"x"`, the resolved emotion is `"neutral"`, which is neither a
case-insensitive member of the allowed list (its only member lower-cases to
`" "`) nor the claim's fallback (the first non-empty member lower-cased,
which is `" "`). -/
theorem C5_counterexample :
    resolveEmotion "x" [" "] = "neutral" ∧
    goToLower " " ≠ goToLower "neutral" ∧
    specFallbackEmotion [" "] = " " := by decide

/-- Claim C7: `buildStructuredFormat` is a pure function of the allowed
emotion list producing a `json_schema` response format whose strict schema
describes an object with exactly the required string properties `reply` and
`emotion`, `additionalProperties` false, and an `enum` constraint on
`emotion` listing every allowed value verbatim exactly when the allowed
list is non-empty. -/
theorem C7_schema_builder (emotions : List String) :
    (buildStructuredFormat emotions).Typ = "json_schema" ∧
    ∃ js, (buildStructuredFormat emotions).JsonSchema = some js ∧
      js.Strict = true ∧
      js.Schema.lookup "type" = some (JVal.str "object") ∧
      js.Schema.lookup "additionalProperties" = some (JVal.bool false) ∧
      js.Schema.lookup "required" = some (JVal.arr [JVal.str "reply", JVal.str "emotion"]) ∧
      ∃ emoProps,
        js.Schema.lookup "properties" =
          some (JVal.obj [("reply", JVal.obj [("type", JVal.str "string")]),
                          ("emotion", JVal.obj emoProps)]) ∧
        emoProps.lookup "type" = some (JVal.str "string") ∧
        emoProps.lookup "enum" =
          (if emotions.isEmpty then none else some (JVal.arr (emotions.map JVal.str))) := by
  refine ⟨rfl, ?_⟩
  cases emotions with
  | nil => exact ⟨_, rfl, rfl, rfl, rfl, rfl, _, rfl, rfl, rfl⟩
  | cons e es =>
    refine ⟨_, rfl, rfl, rfl, rfl, rfl, buildEmotionSchema (e :: es), rfl, ?_, ?_⟩
    · simp [buildEmotionSchema, List.lookup]
    · simp [buildEmotionSchema, List.lookup]

theorem appendHistory_eq (history : List ChatMessageDB) (acc : List chatMessage) :
    appendHistory acc history =
      acc ++ (history.filter (fun m => m.role == "user" || m.role == "assistant")).map
        (fun m => { Role := m.role, Content := m.content, Refusal := "" }) := by
  induction history generalizing acc with
  | nil => simp [appendHistory]
  | cons m ms ih =>
    unfold appendHistory at ih ⊢
    rw [List.foldl_cons]
    by_cases h : m.role = "user" ∨ m.role = "assistant"
    · rw [if_pos h, ih]
      have hb : (m.role == "user" || m.role == "assistant") = true := by
        rcases h with h | h <;> simp [h]
      simp [List.filter_cons, hb]
    · rw [if_neg h, ih]
      have hb : (m.role == "user" || m.role == "assistant") = false := by
        push_neg at h
        simp [h.1, h.2]
      simp [List.filter_cons, hb]

/-- Claim C9: in both request paths, the message list sent to the provider
is exactly one system message followed by the history entries whose role is
user or assistant, in their original order; entries with any other role are
silently omitted. -/
theorem C9_history_role_filtering (sys : String) (history : List ChatMessageDB) :
    buildMessages sys history =
      { Role := "system", Content := sys, Refusal := "" } ::
        (history.filter (fun m => m.role == "user" || m.role == "assistant")).map
          (fun m => { Role := m.role, Content := m.content, Refusal := "" }) := by
  unfold buildMessages
  rw [appendHistory_eq]
  rfl

/-- Claim C4 (amended): per logical call the fallback chain applies at
most one temperature downgrade and at most one response-format downgrade,
never exceeds 3 transport attempts for any transport, and when every
transport failure is an HTTP 400 whose body carries the
temperature-unsupported marker and no response-format marker, at most 2
attempts (the original plus one temperature downgrade) are issued before
the error is surfaced.  (A body carrying both markers draws a third
attempt, see `C4_counterexample`, so the 2-attempt bound needs the
no-response-format-marker proviso.) -/
theorem C4_escalation_bound (t : chatRequest → Except TransportErr Unit) (req : chatRequest) :
    (doChatStreamRequestWithFallback t req).2.2.1.length ≤ 3 ∧
    (doChatStreamRequestWithFallback t req).2.2.2.count "temperature" ≤ 1 ∧
    (doChatStreamRequestWithFallback t req).2.2.2.count "response_format" ≤ 1 ∧
    ((∀ r e, t r = Except.error (TransportErr.api e) →
        shouldRetryWithoutTemperature e.status e.body = true ∧
        shouldFallbackToJSONMode e.status e.body = false) →
      (doChatStreamRequestWithFallback t req).2.2.1.length ≤ 2) := by
  unfold doChatStreamRequestWithFallback
  cases h1 : t req with
  | ok u => simp [h1]
  | error err =>
  cases err with
  | other msg => simp [h1]
  | api e =>
  by_cases hre : shouldRetryWithoutTemperature e.status e.body = true
  · cases h2 : t { req with Temperature := 0 } with
    | ok u2 => simp [h1, h2, hre, List.count_cons, List.count_nil]
    | error err2 =>
    cases err2 with
    | other msg2 => simp [h1, h2, hre, List.count_cons, List.count_nil]
    | api e2 =>
    by_cases hf2 : shouldFallbackToJSONMode e2.status e2.body = true
    · cases h3 : t { req with Temperature := 0, ResponseFormat := { Typ := "json_object", JsonSchema := none } } with
      | ok u3 =>
        refine ⟨by simp [h1, h2, h3, hre, hf2],
          by simp [h1, h2, h3, hre, hf2, List.count_cons, List.count_nil],
          by simp [h1, h2, h3, hre, hf2, List.count_cons, List.count_nil],
          fun h => absurd (h _ _ h2).2 (by simp [hf2])⟩
      | error err3 =>
      cases err3 with
      | other msg3 =>
        refine ⟨by simp [h1, h2, h3, hre, hf2],
          by simp [h1, h2, h3, hre, hf2, List.count_cons, List.count_nil],
          by simp [h1, h2, h3, hre, hf2, List.count_cons, List.count_nil],
          fun h => absurd (h _ _ h2).2 (by simp [hf2])⟩
      | api e3 =>
        refine ⟨by simp [h1, h2, h3, hre, hf2],
          by simp [h1, h2, h3, hre, hf2, List.count_cons, List.count_nil],
          by simp [h1, h2, h3, hre, hf2, List.count_cons, List.count_nil],
          fun h => absurd (h _ _ h2).2 (by simp [hf2])⟩
    · simp only [Bool.not_eq_true] at hf2
      simp [h1, h2, hre, hf2, List.count_cons, List.count_nil]
  · simp only [Bool.not_eq_true] at hre
    by_cases hf : shouldFallbackToJSONMode e.status e.body = true
    · cases h2 : t { req with ResponseFormat := { Typ := "json_object", JsonSchema := none } } with
      | ok u2 => simp [h1, h2, hre, hf, List.count_cons, List.count_nil]
      | error err2 =>
      cases err2 with
      | other msg2 => simp [h1, h2, hre, hf, List.count_cons, List.count_nil]
      | api e2 =>
        by_cases hc : shouldRetryWithoutTemperature e2.status e2.body = true ∧
            ¬ req.Temperature = 0
        · refine ⟨by simp [h1, h2, hre, hf, hc],
            by simp [h1, h2, hre, hf, hc, List.count_cons, List.count_nil],
            by simp [h1, h2, hre, hf, hc, List.count_cons, List.count_nil],
            fun h => absurd (h _ _ h1).1 (by simp [hre])⟩
        · simp [h1, h2, hre, hf, hc, List.count_cons, List.count_nil]
    · simp only [Bool.not_eq_true] at hf
      simp [h1, hre, hf]

/-- Claim C4 counterexample: a transport that always fails with HTTP 400
and a body carrying the temperature-unsupported marker (but also a
response-format marker, which the frozen claim does not exclude) draws 3
transport attempts, not at most 2. -/
theorem C4_counterexample :
    shouldRetryWithoutTemperature 400 "temperature unsupported response_format" = true ∧
    (doChatStreamRequestWithFallback
        (fun _ => Except.error (TransportErr.api
          { status := 400, body := "temperature unsupported response_format" }))
        { Model := "m", Messages := [], Temperature := 1, Stream := true
          ResponseFormat := buildStructuredFormat [] }).2.2.1.length = 3 := by
  constructor
  · decide
  · decide

theorem C4_escalation_bound_witness :
    (doChatStreamRequestWithFallback
        (fun _ => Except.error (TransportErr.api
          { status := 400, body := "temperature unsupported" }))
        { Model := "m", Messages := [], Temperature := 1, Stream := true
          ResponseFormat := buildStructuredFormat [] }).2.2.1.length ≤ 2 :=
  (C4_escalation_bound _ _).2.2.2
    (by
      intro r e he
      have h1 : TransportErr.api { status := 400, body := "temperature unsupported" } =
          TransportErr.api e := by injection he
      have h2 : ({ status := 400, body := "temperature unsupported" } : apiError) = e := by
        injection h1
      rw [← h2]
      exact ⟨by decide, by decide⟩)

/-- Claim C8: buffered-mode graceful degradation.  For a first choice whose
trimmed content is non-empty, if parsing that content as JSON fails or the
parsed reply field is empty, `GenerateReply` still succeeds, returning the
(trimmed) content verbatim as the reply text with the fallback emotion. -/
theorem C8_buffered_degradation (um : String → Option aiJSON) (E : List String)
    (msg : chatMessage) (rest : List chatMessage)
    (hne : goTrimSpace msg.Content ≠ "")
    (hbad : parseAIJSON um (goTrimSpace msg.Content) = none ∨
      ∃ a, parseAIJSON um (goTrimSpace msg.Content) = some a ∧ a.Reply = "") :
    generateReplyTail um E (msg :: rest) =
      Except.ok { Text := goTrimSpace msg.Content, Emotion := fallbackEmotion E } := by
  rcases hbad with hb | ⟨a, hb, ha⟩
  · simp [generateReplyTail, hne, hb]
  · simp [generateReplyTail, hne, hb, ha]

theorem C8_buffered_degradation_witness :
    goTrimSpace "plain text" ≠ "" ∧
    generateReplyTail (fun _ => none) ["happy"]
        [{ Role := "assistant", Content := "plain text", Refusal := "" }] =
      Except.ok { Text := "plain text", Emotion := "happy" } :=
  ⟨by decide, by
    rw [C8_buffered_degradation (fun _ => none) ["happy"]
      { Role := "assistant", Content := "plain text", Refusal := "" } []
      (by decide) (Or.inl (by decide))]
    rfl⟩

theorem streamAssemble_spec (um : String → Option aiJSON) (E : List String)
    (p0 : ParserState) (raw refusal : String) :
    (streamAssemble um E p0 raw refusal).2.2 =
      ((goTrimSpace p0.replyBuilder == "") && (goTrimSpace raw != "")) ∧
    isErrorB (streamAssemble um E p0 raw refusal).1 =
      ((goTrimSpace p0.replyBuilder == "") &&
        !((goTrimSpace raw != "") && reparseYieldsReply um (goTrimSpace raw))) := by
  have hte : goTrimSpace "" = "" := rfl
  unfold streamAssemble reparseYieldsReply isErrorB
  by_cases hr : goTrimSpace refusal = "" <;>
  [skip; skip] <;>
  · by_cases h1 : goTrimSpace p0.replyBuilder = ""
    · by_cases h2 : goTrimSpace raw = ""
      · simp [h1, h2, hr, hte]
      · rcases hp : parseAIJSON um (goTrimSpace raw) with _ | a
        · simp [h1, h2, hp, hr, hte]
        · by_cases ha : a.Reply = ""
          · simp [h1, h2, hp, ha, hr, hte]
          · by_cases ht : goTrimSpace a.Reply = ""
            · simp [h1, h2, hp, ha, ht, hr, hte]
            · simp [h1, h2, hp, ha, ht, hr, hte]
    · simp [h1]

/-- Claim C6 (amended): per stream, the raw-stream re-parse happens exactly
when the extractor-captured reply trims to empty and the concatenated raw
stream is non-empty — irrespective of whether the capture field (emotion)
was finalized — and the call fails exactly when the captured reply trims to
empty and the re-parse does not yield non-whitespace reply text. -/
theorem C6_raw_fallback (um : String → Option aiJSON) (E : List String)
    (deltas : List String) (refusal : String) :
    (StreamReplyModel um E deltas refusal).2.2 =
      ((goTrimSpace (List.foldl Feed newJSONStreamParser deltas).replyBuilder == "") &&
        (goTrimSpace (String.join deltas) != "")) ∧
    isErrorB (StreamReplyModel um E deltas refusal).1 =
      ((goTrimSpace (List.foldl Feed newJSONStreamParser deltas).replyBuilder == "") &&
        !((goTrimSpace (String.join deltas) != "") &&
          reparseYieldsReply um (goTrimSpace (String.join deltas)))) :=
  streamAssemble_spec um E (List.foldl Feed newJSONStreamParser deltas)
    (String.join deltas) refusal

/-- Claim C6 counterexample: on the stream `"x" {"emotion":"sad","reply":"hi"}`
(one chunk), the extractor never finalizes the capture field — yet no
re-parse of the raw stream happens, and the call succeeds with the fallback
emotion instead of the raw stream's `"sad"`. -/
theorem C6_counterexample :
    (List.foldl Feed newJSONStreamParser
      ["\"x\" \x7b\"emotion\":\"sad\",\"reply\":\"hi\"\x7d"]).emotion = "" ∧
    (StreamReplyModel (fun _ => none) ["happy", "sad"]
      ["\"x\" \x7b\"emotion\":\"sad\",\"reply\":\"hi\"\x7d"] "").2.2 = false ∧
    (StreamReplyModel (fun _ => none) ["happy", "sad"]
      ["\"x\" \x7b\"emotion\":\"sad\",\"reply\":\"hi\"\x7d"] "").1 =
      Except.ok { Text := "hi", Emotion := "happy" } := by
  refine ⟨by decide, by decide, by rfl⟩

theorem dropWhileFixOfPrefix (p : Char → Bool) (d l : List Char) (hpre : d <+: l)
    (hfix : l.dropWhile p = l) : d.dropWhile p = d := by
  obtain ⟨t, rfl⟩ := hpre
  cases d with
  | nil => rfl
  | cons a as =>
    rw [List.cons_append, List.dropWhile_cons] at hfix
    by_cases h : p a
    · exfalso
      rw [if_pos h] at hfix
      have hlen := (List.dropWhile_suffix (l := as ++ t) p).length_le
      rw [hfix] at hlen
      simp at hlen
    · rw [List.dropWhile_cons, if_neg h]

theorem goTrimSpace_idem (s : String) : goTrimSpace (goTrimSpace s) = goTrimSpace s := by
  have key : ∀ l : List Char,
      List.rdropWhile goIsSpace (List.dropWhile goIsSpace
        (List.rdropWhile goIsSpace (List.dropWhile goIsSpace l))) =
      List.rdropWhile goIsSpace (List.dropWhile goIsSpace l) := by
    intro l
    have hD1fix : List.dropWhile goIsSpace (List.dropWhile goIsSpace l) =
        List.dropWhile goIsSpace l := List.dropWhile_idempotent _ _
    have hfix := dropWhileFixOfPrefix goIsSpace _ _
      (List.rdropWhile_prefix goIsSpace (List.dropWhile goIsSpace l)) hD1fix
    rw [hfix, List.rdropWhile_idempotent]
  apply String.ext
  exact key s.data

theorem flushChunk_builder (p : ParserState) : (flushChunk p).replyBuilder = p.replyBuilder := by
  unfold flushChunk
  split <;> rfl

theorem closeString_replyChunk (p : ParserState) : (closeString p).replyChunk = p.replyChunk := by
  simp only [closeString]
  split_ifs <;> rfl

theorem closeString_replyBuilder (p : ParserState) :
    (closeString p).replyBuilder = p.replyBuilder := by
  simp only [closeString]
  split_ifs <;> rfl

theorem handleRune_builder (p : ParserState) (r : Char) (hq : p.replyChunk = "") :
    (handleRune p r).replyBuilder = p.replyBuilder ++ (handleRune p r).replyChunk := by
  unfold handleRune
  split_ifs <;> simp_all [strPushEmpty, strAppendEmpty]

theorem feedChar_builder (p : ParserState) (r : Char) (hq : p.replyChunk = "") :
    (feedChar p r).replyBuilder = p.replyBuilder ++ (feedChar p r).replyChunk := by
  unfold feedChar
  by_cases h1 : p.unicodeLeft > 0
  · by_cases h2 : p.unicodeLeft - 1 = 0
    · rcases hdec : decodeUnicode (p.unicodeBuf.push r) with _ | v
      · simp only [if_pos h1, if_pos h2, hdec]
        rw [hq]
        exact (strAppendEmpty _).symm
      · simp only [if_pos h1, if_pos h2, hdec]
        exact handleRune_builder _ _ hq
    · simp only [if_pos h1, if_neg h2]
      rw [hq]
      exact (strAppendEmpty _).symm
  · by_cases h3 : p.inString = true
    · by_cases h4 : p.escape = true
      · by_cases h5 : r = '"' ∨ r = '\\' ∨ r = '/'
        · simp only [if_neg h1, if_pos h3, if_pos h4, if_pos h5]
          exact handleRune_builder _ _ hq
        · by_cases h6 : r = 'b'
          · simp only [if_neg h1, if_pos h3, if_pos h4, if_neg h5, if_pos h6]
            exact handleRune_builder _ _ hq
          · by_cases h7 : r = 'f'
            · simp only [if_neg h1, if_pos h3, if_pos h4, if_neg h5, if_neg h6, if_pos h7]
              exact handleRune_builder _ _ hq
            · by_cases h8 : r = 'n'
              · simp only [if_neg h1, if_pos h3, if_pos h4, if_neg h5, if_neg h6, if_neg h7,
                  if_pos h8]
                exact handleRune_builder _ _ hq
              · by_cases h9 : r = 'r'
                · simp only [if_neg h1, if_pos h3, if_pos h4, if_neg h5, if_neg h6, if_neg h7,
                    if_neg h8, if_pos h9]
                  exact handleRune_builder _ _ hq
                · by_cases h10 : r = 't'
                  · simp only [if_neg h1, if_pos h3, if_pos h4, if_neg h5, if_neg h6, if_neg h7,
                      if_neg h8, if_neg h9, if_pos h10]
                    exact handleRune_builder _ _ hq
                  · by_cases h11 : r = 'u'
                    · simp only [if_neg h1, if_pos h3, if_pos h4, if_neg h5, if_neg h6, if_neg h7,
                        if_neg h8, if_neg h9, if_neg h10, if_pos h11]
                      rw [hq]
                      exact (strAppendEmpty _).symm
                    · simp only [if_neg h1, if_pos h3, if_pos h4, if_neg h5, if_neg h6, if_neg h7,
                        if_neg h8, if_neg h9, if_neg h10, if_neg h11]
                      exact handleRune_builder _ _ hq
      · by_cases h12 : r = '\\'
        · simp only [if_neg h1, if_pos h3, if_neg h4, if_pos h12]
          rw [hq]
          exact (strAppendEmpty _).symm
        · by_cases h13 : r = '"'
          · simp only [if_neg h1, if_pos h3, if_neg h4, if_neg h12, if_pos h13]
            rw [closeString_replyBuilder, closeString_replyChunk, hq]
            exact (strAppendEmpty _).symm
          · simp only [if_neg h1, if_pos h3, if_neg h4, if_neg h12, if_neg h13]
            exact handleRune_builder _ _ hq
    · by_cases h14 : r = '"'
      · simp only [if_neg h1, if_neg h3, if_pos h14]
        rw [hq]
        exact (strAppendEmpty _).symm
      · by_cases h15 : r = ':'
        · simp only [if_neg h1, if_neg h3, if_neg h14, if_pos h15]
          rw [hq]
          exact (strAppendEmpty _).symm
        · by_cases h16 : r = ','
          · simp only [if_neg h1, if_neg h3, if_neg h14, if_neg h15, if_pos h16]
            rw [hq]
            exact (strAppendEmpty _).symm
          · simp only [if_neg h1, if_neg h3, if_neg h14, if_neg h15, if_neg h16]
            rw [hq]
            exact (strAppendEmpty _).symm

theorem feedChar_builder_delta (p : ParserState) (r : Char) :
    (feedChar p r).replyBuilder = p.replyBuilder ++ (feedChar (resetOut p) r).replyChunk := by
  have h1 : (feedChar p r).replyBuilder = (feedChar (resetOut p) r).replyBuilder := by
    conv_lhs => rw [feedChar_split]
  rw [h1, feedChar_builder (resetOut p) r rfl]
  rfl

theorem foldl_feedChar_builder (l : List Char) (p : ParserState) :
    (List.foldl feedChar p l).replyBuilder =
      p.replyBuilder ++ (List.foldl feedChar (resetOut p) l).replyChunk := by
  induction l generalizing p with
  | nil => exact (strAppendEmpty _).symm
  | cons c cs ih =>
    rw [List.foldl_cons, List.foldl_cons, ih (feedChar p c), feedChar_builder_delta,
      feedChar_resetOut, foldl_feedChar_replyChunk cs (feedChar (resetOut p) c), strAppendAssoc]

theorem Feed_builder (p : ParserState) (s : String) :
    (Feed p s).replyBuilder =
      p.replyBuilder ++ (List.foldl feedChar (resetOut p) s.data).replyChunk := by
  unfold Feed
  rw [flushChunk_builder, foldl_feedChar_builder]

theorem foldl_Feed_builder_inv (deltas : List String) (p : ParserState)
    (h : rout p = p.replyBuilder) :
    rout (List.foldl Feed p deltas) = (List.foldl Feed p deltas).replyBuilder := by
  induction deltas generalizing p with
  | nil => exact h
  | cons d ds ih =>
    rw [List.foldl_cons]
    exact ih (Feed p d) (by rw [Feed_rout, Feed_builder, h])

theorem joinEvents_eq_builder (deltas : List String) :
    String.join ((List.foldl Feed newJSONStreamParser deltas).replyEvents) =
      (List.foldl Feed newJSONStreamParser deltas).replyBuilder := by
  have h := foldl_Feed_builder_inv deltas newJSONStreamParser rfl
  unfold rout at h
  rw [foldl_Feed_replyChunk deltas newJSONStreamParser rfl, strAppendEmpty] at h
  exact h

/-- Claim C10: for every streaming call whose reply was captured by the
extractor (the concatenated `onReply` arguments are not pure whitespace),
the call succeeds and the returned text is that concatenation with leading
and trailing whitespace removed. -/
theorem C10_final_text_trimmed (um : String → Option aiJSON) (E : List String)
    (deltas : List String) (refusal : String)
    (hcap : goTrimSpace (String.join
      ((List.foldl Feed newJSONStreamParser deltas).replyEvents)) ≠ "") :
    ∃ em, (StreamReplyModel um E deltas refusal).1 =
      Except.ok { Text := goTrimSpace (String.join ((List.foldl Feed newJSONStreamParser deltas).replyEvents)), Emotion := em } := by
  have hb := joinEvents_eq_builder deltas
  rw [hb] at hcap ⊢
  unfold StreamReplyModel streamAssemble
  refine ⟨resolveEmotion (List.foldl Feed newJSONStreamParser deltas).emotion E, ?_⟩
  simp [hcap, goTrimSpace_idem]

theorem C10_final_text_trimmed_witness :
    goTrimSpace (String.join ((List.foldl Feed newJSONStreamParser
        ["\x7b\"reply\":\" Hi \",\"emotion\":\"sad\"\x7d"]).replyEvents)) ≠ "" ∧
    ∃ em, (StreamReplyModel (fun _ => none) ["happy", "sad"]
        ["\x7b\"reply\":\" Hi \",\"emotion\":\"sad\"\x7d"] "").1 =
      Except.ok { Text := "Hi", Emotion := em } := by
  refine ⟨by decide, ?_⟩
  obtain ⟨em, h⟩ := C10_final_text_trimmed (fun _ => none) ["happy", "sad"]
    ["\x7b\"reply\":\" Hi \",\"emotion\":\"sad\"\x7d"] "" (by decide)
  exact ⟨em, by rw [h]; rfl⟩

theorem tok_run (t : JTok) (p : ParserState) (hok : t.okb = true)
    (hins : p.inString = true) (hesc : p.escape = false) (hul : p.unicodeLeft = 0)
    (hub : p.unicodeBuf = "") :
    List.foldl feedChar p t.render = handleRune p t.decode := by
  cases p with
  | mk rb rc ck cv ckn em instr ev md esc ul ub re ee =>
  simp only at hins hesc hul hub
  subst hins hesc hul hub
  cases t with
  | plain c =>
    simp only [JTok.okb, Bool.not_eq_true'] at hok
    have hc1 : ¬ c = '"' := by intro h; rw [h] at hok; simp at hok
    have hc2 : ¬ c = '\\' := by intro h; rw [h] at hok; simp at hok
    simp [JTok.render, JTok.decode, feedChar, hc1, hc2]
  | escQuote => simp [JTok.render, JTok.decode, feedChar]
  | escBackslash => simp [JTok.render, JTok.decode, feedChar]
  | escSlash => simp [JTok.render, JTok.decode, feedChar]
  | escB => simp [JTok.render, JTok.decode, feedChar]
  | escF => simp [JTok.render, JTok.decode, feedChar]
  | escN => simp [JTok.render, JTok.decode, feedChar]
  | escR => simp [JTok.render, JTok.decode, feedChar]
  | escT => simp [JTok.render, JTok.decode, feedChar]
  | escU a b c d =>
    rcases ha : hexDigitVal a with _ | da
    · simp [JTok.okb, ha] at hok
    rcases hb : hexDigitVal b with _ | db
    · simp [JTok.okb, ha, hb] at hok
    rcases hc : hexDigitVal c with _ | dc
    · simp [JTok.okb, ha, hb, hc] at hok
    rcases hd : hexDigitVal d with _ | dd
    · simp [JTok.okb, ha, hb, hc, hd] at hok
    simp only [JTok.okb, ha, hb, hc, hd, Bool.or_eq_true, Bool.and_eq_true,
      decide_eq_true_eq] at hok
    have hna : ¬ a = '+' := by
      intro h; rw [h] at ha
      rw [show hexDigitVal '+' = none from by decide] at ha
      exact Option.noConfusion ha
    have hnb : ¬ a = '-' := by
      intro h; rw [h] at ha
      rw [show hexDigitVal '-' = none from by decide] at ha
      exact Option.noConfusion ha
    simp only [JTok.render, JTok.decode, ha, hb, hc, hd, List.foldl_cons, List.foldl_nil]
    simp [feedChar, String.push, decodeUnicode, parseIntHex, parseHexNat, parseHexNatAux,
      hna, hnb, ha, hb, hc, hd, runeToChar, String.length]
    have hcond : (0:Int) ≤ (((da:Int) * 16 + db) * 16 + dc) * 16 + dd ∧
        ((((da:Int) * 16 + db) * 16 + dc) * 16 + dd < 55296 ∨
          57343 < (((da:Int) * 16 + db) * 16 + dc) * 16 + dd ∧
            (((da:Int) * 16 + db) * 16 + dc) * 16 + dd < 1114112) := by
      refine ⟨by positivity, ?_⟩
      rcases hok with h | ⟨h1, h2⟩
      · left; exact_mod_cast h
      · right; exact ⟨by exact_mod_cast h1, by exact_mod_cast h2⟩
    rw [if_pos hcond]
    have htn : ((((da:Int) * 16 + db) * 16 + dc) * 16 + dd).toNat =
        ((da * 16 + db) * 16 + dc) * 16 + dd := by omega
    rw [htn]

theorem handleRune_fields (p : ParserState) (r : Char) :
    (handleRune p r).inString = p.inString ∧ (handleRune p r).escape = p.escape ∧
    (handleRune p r).unicodeLeft = p.unicodeLeft ∧ (handleRune p r).unicodeBuf = p.unicodeBuf ∧
    (handleRune p r).mode = p.mode ∧ (handleRune p r).currentKeyName = p.currentKeyName ∧
    (handleRune p r).emotion = p.emotion ∧ (handleRune p r).expectValue = p.expectValue ∧
    (handleRune p r).emotionEvents = p.emotionEvents := by
  unfold handleRune
  split_ifs <;> exact ⟨rfl, rfl, rfl, rfl, rfl, rfl, rfl, rfl, rfl⟩

theorem runToks (ts : List JTok) (p : ParserState) (hok : ts.all JTok.okb = true)
    (hins : p.inString = true) (hesc : p.escape = false) (hul : p.unicodeLeft = 0)
    (hub : p.unicodeBuf = "") :
    List.foldl feedChar p ((ts.map JTok.render).flatten) =
      List.foldl handleRune p (ts.map JTok.decode) := by
  induction ts generalizing p with
  | nil => rfl
  | cons t ts ih =>
    simp only [List.all_cons, Bool.and_eq_true] at hok
    simp only [List.map_cons, List.flatten_cons, List.foldl_cons, List.foldl_append]
    rw [tok_run t p hok.1 hins hesc hul hub]
    obtain ⟨f1, f2, f3, f4, _⟩ := handleRune_fields p t.decode
    exact ih _ hok.2 (by rw [f1, hins]) (by rw [f2, hesc]) (by rw [f3, hul]) (by rw [f4, hub])

theorem strPushAppendMk (s : String) (c : Char) (l : List Char) :
    (s.push c) ++ (⟨l⟩ : String) = s ++ ⟨c :: l⟩ := by
  apply String.ext
  simp [String.data_append, String.data_push]

theorem foldl_handleRune_key (l : List Char) (p : ParserState) (hmd : p.mode = "key") :
    List.foldl handleRune p l = { p with currentKey := p.currentKey ++ (⟨l⟩ : String) } := by
  induction l generalizing p with
  | nil =>
    cases p
    simp [strAppendEmpty]
  | cons c cs ih =>
    rw [List.foldl_cons]
    have h1 : handleRune p c = { p with currentKey := p.currentKey.push c } := by
      unfold handleRune
      rw [if_pos hmd]
    rw [h1, ih _ (by exact hmd)]
    cases p
    simp only at hmd
    simp [strPushAppendMk]

theorem foldl_handleRune_reply (l : List Char) (p : ParserState) (hmd : p.mode = "value")
    (hk : p.currentKeyName = "reply") :
    List.foldl handleRune p l =
      { p with replyBuilder := p.replyBuilder ++ (⟨l⟩ : String),
               replyChunk := p.replyChunk ++ (⟨l⟩ : String) } := by
  induction l generalizing p with
  | nil =>
    cases p
    simp [strAppendEmpty]
  | cons c cs ih =>
    rw [List.foldl_cons]
    have h1 : handleRune p c =
        { p with replyBuilder := p.replyBuilder.push c, replyChunk := p.replyChunk.push c } := by
      unfold handleRune
      rw [if_neg (by rw [hmd]; decide), if_pos hmd, if_pos hk]
    rw [h1, ih _ (by exact hmd) (by exact hk)]
    cases p
    simp [strPushAppendMk]

theorem foldl_handleRune_emotionVal (l : List Char) (p : ParserState) (hmd : p.mode = "value")
    (hk : p.currentKeyName = "emotion") (hem : p.emotion = "") :
    List.foldl handleRune p l = { p with currentValue := p.currentValue ++ (⟨l⟩ : String) } := by
  induction l generalizing p with
  | nil =>
    cases p
    simp [strAppendEmpty]
  | cons c cs ih =>
    rw [List.foldl_cons]
    have h1 : handleRune p c = { p with currentValue := p.currentValue.push c } := by
      unfold handleRune
      rw [if_neg (by rw [hmd]; decide), if_pos hmd, if_neg (by rw [hk]; decide),
        if_pos ⟨hk, hem⟩]
    rw [h1, ih _ (by exact hmd) (by exact hk) (by exact hem)]
    cases p
    simp [strPushAppendMk]

theorem foldl_handleRune_skip (l : List Char) (p : ParserState) (hmd : p.mode = "value")
    (hk1 : p.currentKeyName ≠ "reply") (hk2 : ¬ (p.currentKeyName = "emotion" ∧ p.emotion = "")) :
    List.foldl handleRune p l = p := by
  induction l generalizing p with
  | nil => rfl
  | cons c cs ih =>
    rw [List.foldl_cons]
    have h1 : handleRune p c = p := by
      unfold handleRune
      rw [if_neg (by rw [hmd]; decide), if_pos hmd, if_neg hk1, if_neg hk2]
    rw [h1]
    exact ih p hmd hk1 hk2


theorem feed_quote_open (p : ParserState) (houts : p.inString = false)
    (hul : p.unicodeLeft = 0) :
    feedChar p '"' =
      { p with inString := true, mode := if p.expectValue then "value" else "key" } := by
  unfold feedChar
  rw [if_neg (by simp [hul]), if_neg (by simp [houts]), if_pos rfl]

theorem feed_quote_close (p : ParserState) (hins : p.inString = true) (hesc : p.escape = false)
    (hul : p.unicodeLeft = 0) :
    feedChar p '"' = closeString p := by
  unfold feedChar
  rw [if_neg (by simp [hul]), if_pos hins, if_neg (by simp [hesc]), if_neg (by decide),
    if_pos rfl]

theorem closeString_key (p : ParserState) (hmd : p.mode = "key") :
    closeString p = { p with inString := false, currentKeyName := p.currentKey, currentKey := "", expectValue := true, mode := "" } := by
  cases p
  simp only at hmd
  subst hmd
  simp [closeString]

theorem closeString_value_capture (p : ParserState) (hmd : p.mode = "value")
    (hk : p.currentKeyName = "emotion") (hem : p.emotion = "") :
    closeString p = { p with inString := false, emotion := p.currentValue, emotionEvents := p.emotionEvents ++ [p.currentValue], currentValue := "", expectValue := false, mode := "" } := by
  cases p
  simp only at hmd hk hem
  subst hmd hk hem
  simp [closeString]

theorem closeString_value_other (p : ParserState) (hmd : p.mode = "value")
    (hk2 : ¬ (p.currentKeyName = "emotion" ∧ p.emotion = "")) :
    closeString p = { p with inString := false, currentValue := "", expectValue := false, mode := "" } := by
  cases p
  simp only at hmd hk2
  subst hmd
  simp [closeString, hk2]

theorem run_ws (l : List Char) (p : ParserState) (hws : l.all isJSONWS = true)
    (houts : p.inString = false) (hul : p.unicodeLeft = 0) :
    List.foldl feedChar p l = p := by
  induction l generalizing p with
  | nil => rfl
  | cons c cs ih =>
    simp only [List.all_cons, Bool.and_eq_true] at hws
    have hc := hws.1
    simp only [isJSONWS, Bool.or_eq_true, decide_eq_true_eq] at hc
    have hstep : feedChar p c = p := by
      rcases hc with ((rfl | rfl) | rfl) | rfl <;>
        · unfold feedChar
          rw [if_neg (by simp [hul]), if_neg (by simp [houts]), if_neg (by decide),
            if_neg (by decide), if_neg (by decide)]
    rw [List.foldl_cons, hstep]
    exact ih p hws.2 houts hul

theorem feed_colon (p : ParserState) (houts : p.inString = false) (hul : p.unicodeLeft = 0) :
    feedChar p ':' = p := by
  unfold feedChar
  rw [if_neg (by simp [hul]), if_neg (by simp [houts]), if_neg (by decide), if_pos rfl]

theorem feed_comma (p : ParserState) (houts : p.inString = false) (hul : p.unicodeLeft = 0) :
    feedChar p ',' = { p with expectValue := false, mode := "" } := by
  unfold feedChar
  rw [if_neg (by simp [hul]), if_neg (by simp [houts]), if_neg (by decide),
    if_neg (by decide), if_pos rfl]

theorem feed_openBrace (p : ParserState) (houts : p.inString = false)
    (hul : p.unicodeLeft = 0) :
    feedChar p '{' = p := by
  unfold feedChar
  rw [if_neg (by simp [hul]), if_neg (by simp [houts]), if_neg (by decide),
    if_neg (by decide), if_neg (by decide)]

theorem feed_closeBrace (p : ParserState) (houts : p.inString = false)
    (hul : p.unicodeLeft = 0) :
    feedChar p '}' = p := by
  unfold feedChar
  rw [if_neg (by simp [hul]), if_neg (by simp [houts]), if_neg (by decide),
    if_neg (by decide), if_neg (by decide)]

theorem iteFalseStr (a b : String) : (if (false : Bool) = true then a else b) = b := rfl

theorem iteTrueStr (a b : String) : (if (true : Bool) = true then a else b) = a := rfl

theorem run_keyLit (ts : List JTok) (p : ParserState) (hok : ts.all JTok.okb = true)
    (houts : p.inString = false) (hesc : p.escape = false) (hul : p.unicodeLeft = 0)
    (hub : p.unicodeBuf = "") (hmd : p.mode = "") (hexp : p.expectValue = false)
    (hck : p.currentKey = "") :
    List.foldl feedChar p (strTokChars ts) =
      { p with currentKeyName := decodeToks ts, expectValue := true } := by
  cases p with
  | mk rb rc ck cv ckn em instr ev md esc ul ub re ee =>
  simp only at houts hesc hul hub hmd hexp hck
  subst houts hesc hul hub hmd hexp hck
  unfold strTokChars
  simp only [List.foldl_cons, List.foldl_append, List.foldl_nil]
  rw [feed_quote_open (ParserState.mk rb rc "" cv ckn em false false "" false 0 "" re ee) rfl rfl]
  simp only [iteFalseStr]
  rw [runToks ts (ParserState.mk rb rc "" cv ckn em true false "key" false 0 "" re ee)
    hok rfl rfl rfl rfl]
  rw [foldl_handleRune_key _ _ rfl]
  rw [feed_quote_close _ rfl rfl rfl]
  rw [closeString_key _ rfl]
  simp [decodeToks, strEmptyAppend]

theorem run_valLit_reply (ts : List JTok) (p : ParserState) (hok : ts.all JTok.okb = true)
    (houts : p.inString = false) (hesc : p.escape = false) (hul : p.unicodeLeft = 0)
    (hub : p.unicodeBuf = "") (hmd : p.mode = "") (hexp : p.expectValue = true)
    (hcv : p.currentValue = "") (hk : p.currentKeyName = "reply") :
    List.foldl feedChar p (strTokChars ts) =
      { p with replyBuilder := p.replyBuilder ++ decodeToks ts, replyChunk := p.replyChunk ++ decodeToks ts, expectValue := false } := by
  cases p with
  | mk rb rc ck cv ckn em instr ev md esc ul ub re ee =>
  simp only at houts hesc hul hub hmd hexp hcv hk
  subst houts hesc hul hub hmd hexp hcv hk
  unfold strTokChars
  simp only [List.foldl_cons, List.foldl_append, List.foldl_nil]
  rw [feed_quote_open (ParserState.mk rb rc ck "" "reply" em false true "" false 0 "" re ee) rfl rfl]
  simp only [iteTrueStr, eq_self_iff_true, if_true]
  rw [runToks ts (ParserState.mk rb rc ck "" "reply" em true true "value" false 0 "" re ee)
    hok rfl rfl rfl rfl]
  rw [foldl_handleRune_reply _ _ rfl rfl]
  rw [feed_quote_close _ rfl rfl rfl]
  rw [closeString_value_other (ParserState.mk (rb ++ (⟨ts.map JTok.decode⟩ : String))
    (rc ++ (⟨ts.map JTok.decode⟩ : String)) ck "" "reply" em true true "value" false 0 "" re ee)
    rfl (fun hcon => absurd hcon.1 (by decide : ¬ ("reply" : String) = "emotion"))]
  simp [decodeToks]

theorem run_valLit_capture (ts : List JTok) (p : ParserState) (hok : ts.all JTok.okb = true)
    (houts : p.inString = false) (hesc : p.escape = false) (hul : p.unicodeLeft = 0)
    (hub : p.unicodeBuf = "") (hmd : p.mode = "") (hexp : p.expectValue = true)
    (hcv : p.currentValue = "") (hk : p.currentKeyName = "emotion") (hem : p.emotion = "") :
    List.foldl feedChar p (strTokChars ts) =
      { p with emotion := decodeToks ts, emotionEvents := p.emotionEvents ++ [decodeToks ts], expectValue := false } := by
  cases p with
  | mk rb rc ck cv ckn em instr ev md esc ul ub re ee =>
  simp only at houts hesc hul hub hmd hexp hcv hk hem
  subst houts hesc hul hub hmd hexp hcv hk hem
  unfold strTokChars
  simp only [List.foldl_cons, List.foldl_append, List.foldl_nil]
  rw [feed_quote_open (ParserState.mk rb rc ck "" "emotion" "" false true "" false 0 "" re ee) rfl rfl]
  simp only [iteTrueStr, eq_self_iff_true, if_true]
  rw [runToks ts (ParserState.mk rb rc ck "" "emotion" "" true true "value" false 0 "" re ee)
    hok rfl rfl rfl rfl]
  rw [foldl_handleRune_emotionVal _ _ rfl rfl rfl]
  rw [feed_quote_close _ rfl rfl rfl]
  rw [closeString_value_capture (ParserState.mk rb rc ck ("" ++ (⟨ts.map JTok.decode⟩ : String))
    "emotion" "" true true "value" false 0 "" re ee) rfl rfl rfl]
  simp [decodeToks, strEmptyAppend]

theorem run_valLit_other (ts : List JTok) (p : ParserState) (hok : ts.all JTok.okb = true)
    (houts : p.inString = false) (hesc : p.escape = false) (hul : p.unicodeLeft = 0)
    (hub : p.unicodeBuf = "") (hmd : p.mode = "") (hexp : p.expectValue = true)
    (hcv : p.currentValue = "") (hk1 : p.currentKeyName ≠ "reply")
    (hk2 : ¬ (p.currentKeyName = "emotion" ∧ p.emotion = "")) :
    List.foldl feedChar p (strTokChars ts) = { p with expectValue := false } := by
  cases p with
  | mk rb rc ck cv ckn em instr ev md esc ul ub re ee =>
  simp only at houts hesc hul hub hmd hexp hcv hk1 hk2
  subst houts hesc hul hub hmd hexp hcv
  unfold strTokChars
  simp only [List.foldl_cons, List.foldl_append, List.foldl_nil]
  rw [feed_quote_open (ParserState.mk rb rc ck "" ckn em false true "" false 0 "" re ee) rfl rfl]
  simp only [iteTrueStr, eq_self_iff_true, if_true]
  rw [runToks ts (ParserState.mk rb rc ck "" ckn em true true "value" false 0 "" re ee)
    hok rfl rfl rfl rfl]
  rw [foldl_handleRune_skip _ _ rfl hk1 hk2]
  rw [feed_quote_close _ rfl rfl rfl]
  rw [closeString_value_other (ParserState.mk rb rc ck "" ckn em true true "value" false 0 "" re ee)
    rfl hk2]


theorem run_pair (q : JPair) (p : ParserState) (hok : q.okb = true) (hr : Ready p) :
    List.foldl feedChar p q.render =
      { p with
          currentKeyName := q.decodedKey
          replyBuilder :=
            if q.decodedKey = "reply" then p.replyBuilder ++ q.decodedVal else p.replyBuilder
          replyChunk :=
            if q.decodedKey = "reply" then p.replyChunk ++ q.decodedVal else p.replyChunk
          emotion :=
            if q.decodedKey = "emotion" ∧ p.emotion = "" then q.decodedVal else p.emotion
          emotionEvents :=
            if q.decodedKey = "emotion" ∧ p.emotion = "" then
              p.emotionEvents ++ [q.decodedVal]
            else p.emotionEvents } := by
  obtain ⟨h1, h2, h3, h4, h5, h6, h7, h8⟩ := hr
  simp only [JPair.okb, Bool.and_eq_true] at hok
  obtain ⟨⟨⟨⟨⟨hw0, hkok⟩, hw1⟩, hw2⟩, hvok⟩, hw3⟩ := hok
  cases p with
  | mk rb rc ck cv ckn em instr ev md esc ul ub re ee =>
  simp only at h1 h2 h3 h4 h5 h6 h7 h8
  subst h1 h2 h3 h4 h5 h6 h7 h8
  unfold JPair.render
  simp only [List.foldl_append]
  rw [run_ws q.ws0 (ParserState.mk rb rc "" "" ckn em false false "" false 0 "" re ee)
    hw0 rfl rfl]
  rw [run_keyLit q.key (ParserState.mk rb rc "" "" ckn em false false "" false 0 "" re ee)
    hkok rfl rfl rfl rfl rfl rfl rfl]
  rw [run_ws q.ws1
    (ParserState.mk rb rc "" "" (decodeToks q.key) em false true "" false 0 "" re ee)
    hw1 rfl rfl]
  rw [List.foldl_cons, List.foldl_nil,
    feed_colon (ParserState.mk rb rc "" "" (decodeToks q.key) em false true "" false 0 "" re ee)
    rfl rfl]
  rw [run_ws q.ws2
    (ParserState.mk rb rc "" "" (decodeToks q.key) em false true "" false 0 "" re ee)
    hw2 rfl rfl]
  by_cases hkr : decodeToks q.key = "reply"
  · rw [run_valLit_reply q.val
      (ParserState.mk rb rc "" "" (decodeToks q.key) em false true "" false 0 "" re ee)
      hvok rfl rfl rfl rfl rfl rfl rfl hkr]
    rw [run_ws q.ws3
      (ParserState.mk (rb ++ decodeToks q.val) (rc ++ decodeToks q.val) "" ""
        (decodeToks q.key) em false false "" false 0 "" re ee)
      hw3 rfl rfl]
    have hne : ¬ (decodeToks q.key = "emotion" ∧ em = "") := by
      intro hcon
      rw [hkr] at hcon
      exact absurd hcon.1 (by decide)
    simp [JPair.decodedKey, JPair.decodedVal, hkr, hne]
  · by_cases hke : decodeToks q.key = "emotion" ∧ em = ""
    · obtain ⟨hke1, hke2⟩ := hke
      subst hke2
      rw [run_valLit_capture q.val
        (ParserState.mk rb rc "" "" (decodeToks q.key) "" false true "" false 0 "" re ee)
        hvok rfl rfl rfl rfl rfl rfl rfl hke1 rfl]
      rw [run_ws q.ws3
        (ParserState.mk rb rc "" "" (decodeToks q.key) (decodeToks q.val) false false "" false 0
          "" re (ee ++ [decodeToks q.val]))
        hw3 rfl rfl]
      simp [JPair.decodedKey, JPair.decodedVal, hkr, hke1]
    · rw [run_valLit_other q.val
        (ParserState.mk rb rc "" "" (decodeToks q.key) em false true "" false 0 "" re ee)
        hvok rfl rfl rfl rfl rfl rfl rfl hkr hke]
      rw [run_ws q.ws3
        (ParserState.mk rb rc "" "" (decodeToks q.key) em false false "" false 0 "" re ee)
        hw3 rfl rfl]
      simp [JPair.decodedKey, JPair.decodedVal, hkr, hke]


theorem replyJoin_nil : replyJoin [] = "" := rfl

theorem replyJoin_cons (q : JPair) (rest : List JPair) :
    replyJoin (q :: rest) =
      if q.decodedKey = "reply" then q.decodedVal ++ replyJoin rest else replyJoin rest := by
  unfold replyJoin
  by_cases h : q.decodedKey = "reply"
  · simp [List.filter_cons, h, joinCons]
  · simp [List.filter_cons, h]

theorem setEvModeEta (p : ParserState) (h1 : p.expectValue = false) (h2 : p.mode = "") :
    ({ p with expectValue := false, mode := "" } : ParserState) = p := by
  cases p
  simp_all

theorem run_pairs (ps : List JPair) (p : ParserState) (hok : pairsOk ps = true)
    (hr : Ready p) :
    List.foldl feedChar p (renderPairs ps) =
      { p with
          currentKeyName := (ps.map JPair.decodedKey).getLastD p.currentKeyName
          replyBuilder := p.replyBuilder ++ replyJoin ps
          replyChunk := p.replyChunk ++ replyJoin ps
          emotion := emFold p.emotion ps
          emotionEvents := p.emotionEvents ++ emEvents p.emotion ps } := by
  induction ps generalizing p with
  | nil =>
    cases p
    simp [renderPairs, replyJoin_nil, emFold, emEvents, strAppendEmpty,
      List.getLastD_nil]
  | cons q rest ih =>
    simp only [pairsOk, List.all_cons, Bool.and_eq_true] at hok
    obtain ⟨h1, h2, h3, h4, h5, h6, h7, h8⟩ := hr
    cases rest with
    | nil =>
      rw [show renderPairs [q] = q.render from rfl]
      rw [run_pair q p hok.1 ⟨h1, h2, h3, h4, h5, h6, h7, h8⟩]
      by_cases hkr : q.decodedKey = "reply" <;>
        by_cases hka : q.decodedKey = "emotion" <;>
          by_cases hkb : p.emotion = "" <;>
            simp_all [replyJoin_cons, replyJoin_nil, emFold, emEvents, strAppendEmpty,
              List.map_cons, List.map_nil, List.getLastD_cons, List.getLastD_nil]
    | cons q2 rest2 =>
      cases p with
      | mk rb rc ck cv ckn em instr ev md esc ul ub re ee =>
      simp only at h1 h2 h3 h4 h5 h6 h7 h8
      subst h1 h2 h3 h4 h5 h6 h7 h8
      rw [show renderPairs (q :: q2 :: rest2) = q.render ++ ',' :: renderPairs (q2 :: rest2)
        from rfl]
      simp only [List.foldl_append, List.foldl_cons]
      rw [run_pair q (ParserState.mk rb rc "" "" ckn em false false "" false 0 "" re ee) hok.1
        ⟨rfl, rfl, rfl, rfl, rfl, rfl, rfl, rfl⟩]
      have hstep := ih (ParserState.mk
          (if JPair.decodedKey q = "reply" then rb ++ JPair.decodedVal q else rb)
          (if JPair.decodedKey q = "reply" then rc ++ JPair.decodedVal q else rc)
          "" "" (JPair.decodedKey q)
          (if JPair.decodedKey q = "emotion" ∧ em = "" then JPair.decodedVal q else em)
          false false "" false 0 "" re
          (if JPair.decodedKey q = "emotion" ∧ em = "" then ee ++ [JPair.decodedVal q] else ee))
        hok.2 ⟨rfl, rfl, rfl, rfl, rfl, rfl, rfl, rfl⟩
      refine Eq.trans hstep ?_
      simp only [List.map_cons, List.getLastD_cons]
      by_cases hkr : JPair.decodedKey q = "reply" <;>
        by_cases hka : JPair.decodedKey q = "emotion" <;>
          by_cases hkb : em = "" <;>
            simp_all [replyJoin_cons, emFold, emEvents, strAppendAssoc, strAppendEmpty]

theorem run_obj (ps : List JPair) (hok : pairsOk ps = true) :
    Feed newJSONStreamParser (renderObj ps) = ParserState.mk
      (replyJoin ps) "" "" "" ((ps.map JPair.decodedKey).getLastD "") (emFold "" ps)
      false false "" false 0 ""
      (if replyJoin ps = "" then [] else [replyJoin ps])
      (emEvents "" ps) := by
  unfold Feed
  rw [show (renderObj ps).data = '{' :: (renderPairs ps ++ ['}']) from rfl]
  simp only [List.foldl_cons, List.foldl_append, List.foldl_nil]
  rw [feed_openBrace newJSONStreamParser rfl rfl]
  rw [run_pairs ps newJSONStreamParser hok ⟨rfl, rfl, rfl, rfl, rfl, rfl, rfl, rfl⟩]
  rw [feed_closeBrace { newJSONStreamParser with
      currentKeyName := (ps.map JPair.decodedKey).getLastD newJSONStreamParser.currentKeyName
      replyBuilder := newJSONStreamParser.replyBuilder ++ replyJoin ps
      replyChunk := newJSONStreamParser.replyChunk ++ replyJoin ps
      emotion := emFold newJSONStreamParser.emotion ps
      emotionEvents :=
        newJSONStreamParser.emotionEvents ++ emEvents newJSONStreamParser.emotion ps } rfl rfl]
  by_cases hj : replyJoin ps = "" <;>
    simp_all [flushChunk, newJSONStreamParser, strEmptyAppend, strAppendEmpty]

theorem joinNilStr : String.join [] = "" := rfl

theorem replyJoin_eq_specReplyValue (ps : List JPair)
    (h : ps.countP (fun q => q.decodedKey == "reply") ≤ 1) :
    replyJoin ps = specReplyValue ps := by
  induction ps with
  | nil => rfl
  | cons q rest ih =>
    by_cases hk : q.decodedKey = "reply"
    · have hcnt : rest.countP (fun q => q.decodedKey == "reply") = 0 := by
        rw [List.countP_cons] at h
        simp only [hk, beq_self_eq_true, if_pos] at h
        omega
      have hfil : rest.filter (fun q => q.decodedKey == "reply") = [] := by
        rw [← List.length_eq_zero, ← List.countP_eq_length_filter]
        exact hcnt
      simp [replyJoin, specReplyValue, List.filter_cons, List.find?_cons, hk, hfil, joinCons,
        joinNilStr, strAppendEmpty]
    · have hstep : replyJoin (q :: rest) = replyJoin rest := by
        simp [replyJoin, List.filter_cons, hk]
      have hspec : specReplyValue (q :: rest) = specReplyValue rest := by
        simp [specReplyValue, List.find?_cons, hk]
      rw [hstep, hspec]
      apply ih
      rw [List.countP_cons] at h
      simp only [beq_iff_eq, hk, if_false] at h
      omega

/-- Claim C2: pass-through decode correctness.  For every well-formed flat
JSON object (every pair well formed, the pass-through key "reply" not
repeated) and every way of splitting its text into chunks, feeding the
chunks in order to a fresh parser makes the concatenation, in order, of the
arguments handed to the pass-through callback equal the fully decoded value
of the "reply" field, with JSON escapes (quote, backslash, slash, the
control-character shorthands, and uXXXX hex quadruples) resolved. -/
theorem C2_passthrough_decode (ps : List JPair) (cs : List String)
    (hok : pairsOk ps = true)
    (huniq : ps.countP (fun q => q.decodedKey == "reply") ≤ 1)
    (hjoin : String.join cs = renderObj ps) :
    String.join ((List.foldl Feed newJSONStreamParser cs).replyEvents) = specReplyValue ps := by
  have hc := foldl_Feed_replyChunk cs newJSONStreamParser rfl
  have hro : rout (List.foldl Feed newJSONStreamParser cs) =
      String.join ((List.foldl Feed newJSONStreamParser cs).replyEvents) := by
    unfold rout
    rw [hc, strAppendEmpty]
  have hv := (foldl_Feed_vs_join cs newJSONStreamParser).2
  rw [hjoin, run_obj ps hok] at hv
  rw [← hro, hv, ← replyJoin_eq_specReplyValue ps huniq]
  by_cases hj : replyJoin ps = "" <;> simp [rout, hj, strAppendEmpty, joinCons, joinNilStr]

theorem C2_passthrough_decode_witness :
    String.join ((List.foldl Feed newJSONStreamParser
        ["\x7b\"emotion\":\"happy\",\"reply\":\"H\\u00", "e9\"\x7d"]).replyEvents) =
      specReplyValue
        [⟨[], [.plain 'e', .plain 'm', .plain 'o', .plain 't', .plain 'i', .plain 'o',
            .plain 'n'], [], [],
          [.plain 'h', .plain 'a', .plain 'p', .plain 'p', .plain 'y'], []⟩,
         ⟨[], [.plain 'r', .plain 'e', .plain 'p', .plain 'l', .plain 'y'], [], [],
          [.plain 'H', .escU '0' '0' 'e' '9'], []⟩] :=
  C2_passthrough_decode
    [⟨[], [.plain 'e', .plain 'm', .plain 'o', .plain 't', .plain 'i', .plain 'o',
        .plain 'n'], [], [],
      [.plain 'h', .plain 'a', .plain 'p', .plain 'p', .plain 'y'], []⟩,
     ⟨[], [.plain 'r', .plain 'e', .plain 'p', .plain 'l', .plain 'y'], [], [],
      [.plain 'H', .escU '0' '0' 'e' '9'], []⟩]
    ["\x7b\"emotion\":\"happy\",\"reply\":\"H\\u00", "e9\"\x7d"]
    (by decide) (by decide) (by decide)

theorem spec_cons_skip (q : JPair) (rest : List JPair) (hk : ¬ q.decodedKey = "emotion") :
    specEmotionValue (q :: rest) = specEmotionValue rest := by
  simp [specEmotionValue, List.filter_cons, hk]

theorem spec_cons_emptyVal (q : JPair) (rest : List JPair) (hk : q.decodedKey = "emotion")
    (hv : q.decodedVal = "") : specEmotionValue (q :: rest) = specEmotionValue rest := by
  simp [specEmotionValue, List.filter_cons, List.find?_cons, hk, hv]

theorem spec_cons_val (q : JPair) (rest : List JPair) (hk : q.decodedKey = "emotion")
    (hv : ¬ q.decodedVal = "") : specEmotionValue (q :: rest) = q.decodedVal := by
  simp [specEmotionValue, List.filter_cons, List.find?_cons, hk, hv]

theorem emEvents_cons (em : String) (q : JPair) (rest : List JPair) :
    emEvents em (q :: rest) =
      (if q.decodedKey = "emotion" ∧ em = "" then [q.decodedVal] else []) ++
        emEvents (if q.decodedKey = "emotion" ∧ em = "" then q.decodedVal else em) rest := rfl

theorem emFold_of_ne (ps : List JPair) (em : String) (h : ¬ em = "") : emFold em ps = em := by
  induction ps with
  | nil => rfl
  | cons q rest ih =>
    unfold emFold
    rw [if_neg (fun hc => h hc.2)]
    exact ih

theorem emEvents_of_ne (ps : List JPair) (em : String) (h : ¬ em = "") : emEvents em ps = [] := by
  induction ps with
  | nil => rfl
  | cons q rest ih =>
    unfold emEvents
    rw [if_neg (fun hc => h hc.2), if_neg (fun hc => h hc.2), List.nil_append]
    exact ih

theorem emFold_empty_spec (ps : List JPair) : emFold "" ps = specEmotionValue ps := by
  induction ps with
  | nil => rfl
  | cons q rest ih =>
    by_cases hk : q.decodedKey = "emotion"
    · by_cases hv : q.decodedVal = ""
      · unfold emFold
        rw [if_pos ⟨hk, rfl⟩, hv, ih, spec_cons_emptyVal q rest hk hv]
      · unfold emFold
        rw [if_pos ⟨hk, rfl⟩, emFold_of_ne rest _ hv, spec_cons_val q rest hk hv]
    · unfold emFold
      rw [if_neg (fun hc => hk hc.1), ih, spec_cons_skip q rest hk]

theorem emEvents_empty_spec (ps : List JPair) :
    (emEvents "" ps).countP (fun s => s != "") ≤ 1 ∧
    ∀ e ∈ emEvents "" ps, e ≠ "" → e = specEmotionValue ps := by
  induction ps with
  | nil => constructor <;> simp [emEvents]
  | cons q rest ih =>
    by_cases hk : q.decodedKey = "emotion"
    · by_cases hv : q.decodedVal = ""
      · have he : emEvents "" (q :: rest) = "" :: emEvents "" rest := by
          rw [emEvents_cons, if_pos ⟨hk, rfl⟩, if_pos ⟨hk, rfl⟩, hv]
          rfl
        constructor
        · rw [he, List.countP_cons]
          simpa using ih.1
        · intro e hme hne
          rw [he] at hme
          rcases List.mem_cons.mp hme with hme | hme
          · exact absurd hme hne
          · rw [spec_cons_emptyVal q rest hk hv]
            exact ih.2 e hme hne
      · have he : emEvents "" (q :: rest) = [q.decodedVal] := by
          rw [emEvents_cons, if_pos ⟨hk, rfl⟩, if_pos ⟨hk, rfl⟩, emEvents_of_ne rest _ hv,
            List.append_nil]
        constructor
        · rw [he, List.countP_cons]
          simp [List.countP_nil, hv]
        · intro e hme hne
          rw [he] at hme
          rcases List.mem_cons.mp hme with hme | hme
          · rw [hme, spec_cons_val q rest hk hv]
          · exact absurd hme (List.not_mem_nil e)
    · have he : emEvents "" (q :: rest) = emEvents "" rest := by
        rw [emEvents_cons, if_neg (fun hc => hk hc.1), if_neg (fun hc => hk hc.1),
          List.nil_append]
      constructor
      · rw [he]
        exact ih.1
      · intro e hme hne
        rw [he] at hme
        rw [spec_cons_skip q rest hk]
        exact ih.2 e hme hne

/-- Claim C3 (amended): capture-at-most-once for non-empty values.  For
every well-formed flat JSON object fed in any chunking to a fresh parser,
at most one non-empty value is ever delivered to the capture (onEmotion)
callback, the finalized emotion equals the value of the first fully-closed
"emotion" occurrence with a non-empty value, and every non-empty delivered
value equals that finalized emotion — so later duplicate keys never
overwrite a non-empty finalized value.  (The original "at most once, first
occurrence only" wording fails when the first occurrence's value is the
empty string: such an occurrence does not finalize the capture, fires an
empty-valued callback, and lets a later occurrence fire again.) -/
theorem C3_capture_once (ps : List JPair) (cs : List String)
    (hok : pairsOk ps = true)
    (hjoin : String.join cs = renderObj ps) :
    ((List.foldl Feed newJSONStreamParser cs).emotionEvents.countP (fun s => s != "")) ≤ 1 ∧
    (List.foldl Feed newJSONStreamParser cs).emotion = specEmotionValue ps ∧
    ∀ e ∈ (List.foldl Feed newJSONStreamParser cs).emotionEvents,
      e ≠ "" → e = specEmotionValue ps := by
  have hvs := (foldl_Feed_vs_join cs newJSONStreamParser).1
  have hem0 := congrArg ParserState.emotion hvs
  have hev0 := congrArg ParserState.emotionEvents hvs
  have hem : (List.foldl Feed newJSONStreamParser cs).emotion =
      (Feed newJSONStreamParser (String.join cs)).emotion := hem0
  have hev : (List.foldl Feed newJSONStreamParser cs).emotionEvents =
      (Feed newJSONStreamParser (String.join cs)).emotionEvents := hev0
  rw [hjoin, run_obj ps hok] at hem hev
  refine ⟨?_, ?_, ?_⟩
  · rw [hev]
    exact (emEvents_empty_spec ps).1
  · rw [hem]
    exact emFold_empty_spec ps
  · intro e hme hne
    rw [hev] at hme
    exact (emEvents_empty_spec ps).2 e hme hne

theorem C3_capture_once_witness :
    ((List.foldl Feed newJSONStreamParser
        ["\x7b\"emotion\":\"\",\"emo", "tion\":\"a\"\x7d"]).emotionEvents.countP
          (fun s => s != "")) ≤ 1 ∧
    (List.foldl Feed newJSONStreamParser
        ["\x7b\"emotion\":\"\",\"emo", "tion\":\"a\"\x7d"]).emotion =
      specEmotionValue
        [⟨[], [.plain 'e', .plain 'm', .plain 'o', .plain 't', .plain 'i', .plain 'o',
            .plain 'n'], [], [], [], []⟩,
         ⟨[], [.plain 'e', .plain 'm', .plain 'o', .plain 't', .plain 'i', .plain 'o',
            .plain 'n'], [], [], [.plain 'a'], []⟩] :=
  ⟨(C3_capture_once
      [⟨[], [.plain 'e', .plain 'm', .plain 'o', .plain 't', .plain 'i', .plain 'o',
          .plain 'n'], [], [], [], []⟩,
       ⟨[], [.plain 'e', .plain 'm', .plain 'o', .plain 't', .plain 'i', .plain 'o',
          .plain 'n'], [], [], [.plain 'a'], []⟩]
      ["\x7b\"emotion\":\"\",\"emo", "tion\":\"a\"\x7d"] (by decide) (by decide)).1,
   (C3_capture_once
      [⟨[], [.plain 'e', .plain 'm', .plain 'o', .plain 't', .plain 'i', .plain 'o',
          .plain 'n'], [], [], [], []⟩,
       ⟨[], [.plain 'e', .plain 'm', .plain 'o', .plain 't', .plain 'i', .plain 'o',
          .plain 'n'], [], [], [.plain 'a'], []⟩]
      ["\x7b\"emotion\":\"\",\"emo", "tion\":\"a\"\x7d"] (by decide) (by decide)).2.1⟩

/-- Claim C3, counterexample to the original wording: on the well-formed
payload with the "emotion" key repeated, first with the empty string as its
value, the capture callback fires twice — the first fully-closed
occurrence's value is not the only value ever delivered. -/
theorem C3_counterexample :
    (Feed newJSONStreamParser "\x7b\"emotion\":\"\",\"emotion\":\"a\"\x7d").emotionEvents
      = ["", "a"] := by decide

end TalkToUgur
